import Mathlib

/-!
# A light memory pool in C: shallow embedding of `memory_pool.h`

The pool is a bump allocator over one `malloc`ed buffer of `MAX_BLOCK_SIZE`
bytes.  Addresses and `size_t` values are natural numbers below `2 ^ 64`;
every C operation that can wrap is written with an explicit `% 2 ^ 64`.
`NULL` is the address `0`.

Dereferencing a `NULL` or released pointer and locking a mutex that the
calling thread already holds do not return in C; the embedding reports them as
a `Fault`.  The text printed by `printf`/`perror` is kept as a list of `Msg`,
because for the `void` functions it is the only thing that tells an accepted
call from a rejected one.
-/

namespace MemoryPool

/-! ## Machine arithmetic -/

/-- The constant `MAX_BLOCK_SIZE` of `memory_pool.h`. -/
def MAX_BLOCK_SIZE : Nat := 1024

/-- Number of values of the 64-bit types `size_t`, `ptrdiff_t` and `void*`. -/
def SIZE_MOD : Nat := 2 ^ 64

/-- The pointer value `NULL`. -/
def NULL : Nat := 0

/-- Unsigned subtraction `a - b` on `size_t`. -/
def size_t_sub (a b : Nat) : Nat := (a % SIZE_MOD + (SIZE_MOD - b % SIZE_MOD)) % SIZE_MOD

/-- Unsigned addition `a + b` on `size_t` (the `+=` of `mp_allocate`). -/
def size_t_add (a b : Nat) : Nat := (a + b) % SIZE_MOD

/-- Address computation `(char*)p + n`. -/
def ptr_add (p n : Nat) : Nat := (p + n) % SIZE_MOD

/-- Pointer difference `(const char*)p - (const char*)q`, a signed 64-bit value
(`ptrdiff_t`): the two's complement reading of the 64-bit difference. -/
def ptr_diff (p q : Nat) : Int :=
  let d := size_t_sub p q
  if d < 2 ^ 63 then (d : Int) else (d : Int) - (SIZE_MOD : Int)

/-- Conversion of a signed value to `size_t`: the cast `(size_t)d`, the implicit
conversion in `__used = p - q`, and the conversion of an `int` argument such
as `-40` at a call of `mp_allocate`. -/
def to_size_t (d : Int) : Nat := (d % (SIZE_MOD : Int)).toNat

/-! ## Data model -/

/-- The struct `memory_block_t`: buffer address, capacity and watermark. -/
structure memory_block_t where
  __mem_start : Nat
  __size : Nat
  __used : Nat
deriving DecidableEq, Repr

/-- The mutex of the pool, reduced to whether it is held. -/
structure pthread_mutex_t where
  locked : Bool
deriving DecidableEq, Repr

/-- The struct `memory_pool_t`; `mp_block = none` is the `NULL` block pointer. -/
structure memory_pool_t where
  mp_block : Option memory_block_t
  mutex : pthread_mutex_t
deriving DecidableEq, Repr

/-- A value of type `memory_pool_t*` as a caller holds it: `NULL`, a pointer to
a live pool, or a pointer whose pool struct has been passed to `free`. -/
inductive PoolRef where
  | null
  | valid (p : memory_pool_t)
  | dangling
deriving DecidableEq, Repr

/-- Ways in which a call does not return normally. -/
inductive Fault where
  | null_deref
  | use_after_free
  | deadlock
deriving DecidableEq, Repr

/-- The diagnostics of `memory_pool.h`, one constructor per `printf`/`perror`. -/
inductive Msg where
  | mp_pool_malloc_failed
  | mp_block_malloc_failed
  | mutex_init_failed
  | memory_pool_is_NULL
  | invaild_memory_allocate_size
  | the_memory_pool_is_full
  | the_memory_pool_is_NULL
  | your_ptr_is_not_in_the_memory_pool
  | free_addr_memory_success (ptr : Nat)
  | memory_allocate_failed
  | free_all_allocated_memory_success
  | your_ptr_is_NULL
deriving DecidableEq, Repr

/-- What a call leaves behind: its return value, the pool as the caller's
pointer now sees it, and the text it printed. -/
structure Ret (α : Type) where
  val : α
  mp : PoolRef
  out : List Msg
deriving DecidableEq, Repr

/-- The call `pthread_mutex_lock`: `none` when the mutex is already held, in which
case the single calling thread blocks forever. -/
def pthread_mutex_lock (m : pthread_mutex_t) : Option pthread_mutex_t :=
  if m.locked then none else some { locked := true }

/-- The call `pthread_mutex_unlock`. -/
def pthread_mutex_unlock (_m : pthread_mutex_t) : pthread_mutex_t := { locked := false }

/-! ## Heap bookkeeping for `init_memory_pool` -/

/-- The three kinds of heap object the pool owns. -/
inductive Res where
  | pool_struct
  | block_struct
  | buffer (addr : Nat)
deriving DecidableEq, Repr

/-- Record a `malloc` result in the list of live objects; a failed `malloc` of the
buffer (`addr = NULL`) adds nothing. -/
def heap_malloc (live : List Res) (r : Res) : List Res :=
  match r with
  | .buffer a => if a = NULL then live else r :: live
  | _ => r :: live

/-- The call `free`: removes the object from the live list; `free(NULL)` does nothing. -/
def heap_free (live : List Res) (r : Res) : List Res :=
  match r with
  | .buffer a => if a = NULL then live else live.erase r
  | _ => live.erase r

/-- Result of `init_memory_pool`: the returned pointer, the heap objects still
allocated at return, and the diagnostics. -/
structure InitRet where
  mp : PoolRef
  live : List Res
  out : List Msg
deriving DecidableEq, Repr

/-! ## The operations -/

/-- The function `init_memory_pool` (memory_pool.h lines 26-55).  The outcomes of
the three `malloc` calls and of `pthread_mutex_init` are parameters:
`pool_ok`/`block_ok` say whether the struct allocations succeed, `buf` is the
address returned by `malloc(MAX_BLOCK_SIZE)` (`NULL` on failure), `mutex_ok`
whether `pthread_mutex_init` returns 0. -/
def init_memory_pool (pool_ok block_ok : Bool) (buf : Nat) (mutex_ok : Bool) : InitRet :=
  if !pool_ok then
    { mp := .null, live := [], out := [.mp_pool_malloc_failed] }
  else
    let live1 := heap_malloc [] .pool_struct
    if !block_ok then
      { mp := .null, live := heap_free live1 .pool_struct, out := [.mp_block_malloc_failed] }
    else
      let live2 := heap_malloc live1 .block_struct
      let live3 := heap_malloc live2 (.buffer buf)
      let blk : memory_block_t :=
        { __size := MAX_BLOCK_SIZE, __mem_start := buf, __used := 0 }
      if !mutex_ok then
        { mp := .null,
          live := heap_free (heap_free (heap_free live3 (.buffer buf)) .block_struct) .pool_struct,
          out := [.mutex_init_failed] }
      else
        { mp := .valid { mp_block := some blk, mutex := { locked := false } },
          live := live3, out := [] }

/-- The function `mp_allocate` (lines 56-79).  `m_size` is the `size_t` argument.
The size test comes before the first dereference; the capacity test reads
the block outside the lock. -/
def mp_allocate (mp : PoolRef) (m_size : Nat) : Except Fault (Ret Nat) :=
  match mp with
  | .null => .ok { val := NULL, mp := .null, out := [.memory_pool_is_NULL] }
  | .dangling =>
    if m_size ≤ 0 ∨ m_size > MAX_BLOCK_SIZE then
      .ok { val := NULL, mp := .dangling, out := [.invaild_memory_allocate_size] }
    else .error .use_after_free
  | .valid p =>
    if m_size ≤ 0 ∨ m_size > MAX_BLOCK_SIZE then
      .ok { val := NULL, mp := .valid p, out := [.invaild_memory_allocate_size] }
    else
      match p.mp_block with
      | none => .error .null_deref
      | some b =>
        if size_t_sub b.__size b.__used < m_size then
          .ok { val := NULL, mp := .valid p, out := [.the_memory_pool_is_full] }
        else
          match pthread_mutex_lock p.mutex with
          | none => .error .deadlock
          | some m1 =>
            let current_pos := ptr_add b.__mem_start b.__used
            let b1 : memory_block_t := { b with __used := size_t_add b.__used m_size }
            .ok { val := current_pos,
                  mp := .valid { mp_block := some b1, mutex := pthread_mutex_unlock m1 },
                  out := [] }

/-- The function `is_mp_ptr` (lines 154-167).  Both `NULL` tests come before the
block is read. -/
def is_mp_ptr (mp : PoolRef) (ptr : Nat) : Except Fault (Bool × List Msg) :=
  match mp with
  | .null => .ok (false, [.the_memory_pool_is_NULL])
  | .dangling =>
    if ptr = NULL then .ok (false, [.your_ptr_is_NULL]) else .error .use_after_free
  | .valid p =>
    if ptr = NULL then .ok (false, [.your_ptr_is_NULL])
    else
      match p.mp_block with
      | none => .error .null_deref
      | some b =>
        .ok (decide (to_size_t (ptr_diff ptr b.__mem_start) < b.__size)
              && decide (ptr_diff ptr b.__mem_start ≥ 0), [])

/-- The function `free_memory` (lines 103-122). -/
def free_memory (mp : PoolRef) (ptr : Nat) : Except Fault (Ret Unit) :=
  match mp with
  | .null => .ok { val := (), mp := .null, out := [.the_memory_pool_is_NULL] }
  | .dangling => .error .use_after_free
  | .valid p =>
    match pthread_mutex_lock p.mutex with
    | none => .error .deadlock
    | some m1 =>
      let p1 : memory_pool_t := { p with mutex := m1 }
      match is_mp_ptr (.valid p1) ptr with
      | .error f => .error f
      | .ok (true, msgs) =>
        match p1.mp_block with
        | none => .error .null_deref
        | some b =>
          let b1 : memory_block_t :=
            { b with __used := to_size_t (ptr_diff ptr b.__mem_start) }
          .ok { val := (),
                mp := .valid { mp_block := some b1, mutex := pthread_mutex_unlock m1 },
                out := msgs ++ [.free_addr_memory_success ptr] }
      | .ok (false, msgs) =>
        .ok { val := (),
              mp := .valid { p1 with mutex := pthread_mutex_unlock m1 },
              out := msgs ++ [.your_ptr_is_not_in_the_memory_pool] }

/-- The function `free_all_memory` (lines 124-152).  `block_ok` says whether the
`malloc` of the replacement block struct succeeds and `buf` is the address
returned by the `malloc` of the replacement buffer.  The two early returns
leave the mutex held, as in the source. -/
def free_all_memory (mp : PoolRef) (block_ok : Bool) (buf : Nat) : Except Fault (Ret Unit) :=
  match mp with
  | .null => .ok { val := (), mp := .null, out := [.the_memory_pool_is_NULL] }
  | .dangling => .error .use_after_free
  | .valid p =>
    match pthread_mutex_lock p.mutex with
    | none => .error .deadlock
    | some m1 =>
      match p.mp_block with
      | none => .ok { val := (), mp := .valid { p with mutex := m1 }, out := [] }
      | some _ =>
        if !block_ok then
          .ok { val := (), mp := .valid { mp_block := none, mutex := m1 },
                out := [.memory_allocate_failed] }
        else
          let b1 : memory_block_t :=
            { __mem_start := buf, __used := 0, __size := MAX_BLOCK_SIZE }
          .ok { val := (),
                mp := .valid { mp_block := some b1, mutex := pthread_mutex_unlock m1 },
                out := [.free_all_allocated_memory_success] }

/-- Result of `destroy_memory_pool`: the caller's pointer after the call, the
heap objects still allocated, and the diagnostics. -/
structure DestroyRet where
  mp : PoolRef
  live : List Res
  out : List Msg
deriving DecidableEq, Repr

/-- The function `destroy_memory_pool` (lines 81-100).  `live` lists the heap
objects allocated before the call.  On the full path the buffer and the
block struct are passed to `free`, the mutex is unlocked and destroyed, and
the pool struct is passed to `free`: the caller's pointer dangles.  The early
return for a `NULL` block pointer leaves the mutex held and frees nothing. -/
def destroy_memory_pool (mp : PoolRef) (live : List Res) : Except Fault DestroyRet :=
  match mp with
  | .null => .ok { mp := .null, live := live, out := [.the_memory_pool_is_NULL] }
  | .dangling => .error .use_after_free
  | .valid p =>
    match pthread_mutex_lock p.mutex with
    | none => .error .deadlock
    | some m1 =>
      match p.mp_block with
      | none => .ok { mp := .valid { p with mutex := m1 }, live := live, out := [] }
      | some b =>
        let live1 := heap_free live (.buffer b.__mem_start)
        let live2 := heap_free live1 .block_struct
        let live3 := heap_free live2 .pool_struct
        .ok { mp := .dangling, live := live3, out := [] }

/-! ## State predicates -/

/-- The buffer of a block lies inside the 64-bit address space and is no larger
than a C object can be (`PTRDIFF_MAX`). -/
def in_address_space (b : memory_block_t) : Prop :=
  b.__mem_start + b.__size ≤ SIZE_MOD ∧ b.__size < 2 ^ 63

instance (b : memory_block_t) : Decidable (in_address_space b) := by
  unfold in_address_space; infer_instance

/-- A live pool with a block whose capacity is `MAX_BLOCK_SIZE` and whose mutex
is free: the shape of every pool between two calls of a sequential client. -/
def mk_pool (base used : Nat) : PoolRef :=
  .valid { mp_block := some { __mem_start := base, __size := MAX_BLOCK_SIZE, __used := used },
           mutex := { locked := false } }

/-- The invariant `0 ≤ used ≤ size` of the data model, on the block of a live pool
(`used` is unsigned, so `0 ≤ used` holds by type). -/
def used_le_size : PoolRef → Prop
  | .valid p =>
    match p.mp_block with
    | some b => b.__used ≤ b.__size
    | none => True
  | _ => True

/-- The invariant together with the capacity: `used ≤ size = MAX_BLOCK_SIZE`. -/
def block_inv : PoolRef → Prop
  | .valid p =>
    match p.mp_block with
    | some b => b.__used ≤ b.__size ∧ b.__size = MAX_BLOCK_SIZE
    | none => True
  | _ => True

/-- The watermark `__used` as a client can read it; `none` when there is no
live pool or no block. -/
def used_of : PoolRef → Option Nat
  | .valid p => p.mp_block.map (fun b => b.__used)
  | _ => none

/-- One call of a sequential client.  `free_all` carries the outcomes of the two
`malloc` calls of `free_all_memory`. -/
inductive Op where
  | allocate (m_size : Nat)
  | free (ptr : Nat)
  | free_all (block_ok : Bool) (buf : Nat)
deriving DecidableEq, Repr

/-- Whether the `malloc` of the block struct succeeds during this call. -/
def Op.block_malloc_ok : Op → Bool
  | .free_all block_ok _ => block_ok
  | _ => true

/-- Perform one call and keep the pool it leaves. -/
def step (mp : PoolRef) (op : Op) : Except Fault PoolRef :=
  match op with
  | .allocate m_size => (mp_allocate mp m_size).map (fun r => r.mp)
  | .free ptr => (free_memory mp ptr).map (fun r => r.mp)
  | .free_all block_ok buf => (free_all_memory mp block_ok buf).map (fun r => r.mp)

/-- Perform a sequence of calls, each on the pool left by the one before. -/
def run (mp : PoolRef) : List Op → Except Fault PoolRef
  | [] => .ok mp
  | op :: ops =>
    match step mp op with
    | .error f => .error f
    | .ok mp1 => run mp1 ops

/-- Tests 1 to 6 of `main` in test.c, for an initialisation that succeeds with
the buffer at `buf` and a reset that obtains its replacement buffer at `buf2`.
The result lists, call by call, the value returned (`0` for the `void`
functions) and the watermark read after the call. -/
def test_main (buf buf2 : Nat) : Except Fault (List (Nat × Option Nat)) := do
  let mp := (init_memory_pool true true buf true).mp
  let small_obj1 ← mp_allocate mp 200
  let small_obj2 ← mp_allocate small_obj1.mp 300
  let large_obj ← mp_allocate small_obj2.mp 1500
  let small_obj3 ← mp_allocate large_obj.mp 600
  let invalid_obj1 ← mp_allocate small_obj3.mp 0
  let invalid_obj2 ← mp_allocate invalid_obj1.mp (to_size_t (-40))
  let f1 ← free_memory invalid_obj2.mp small_obj2.val
  let f2 ← free_memory f1.mp small_obj1.val
  let f3 ← free_memory f2.mp large_obj.val
  let f4 ← free_memory f3.mp 0x123456
  let fa ← free_all_memory f4.mp true buf2
  let new_small_obj1 ← mp_allocate fa.mp 500
  let new_small_obj2 ← mp_allocate new_small_obj1.mp 400
  let new_small_obj3 ← mp_allocate new_small_obj2.mp 200
  pure [(small_obj1.val, used_of small_obj1.mp), (small_obj2.val, used_of small_obj2.mp),
        (large_obj.val, used_of large_obj.mp), (small_obj3.val, used_of small_obj3.mp),
        (invalid_obj1.val, used_of invalid_obj1.mp), (invalid_obj2.val, used_of invalid_obj2.mp),
        (0, used_of f1.mp), (0, used_of f2.mp), (0, used_of f3.mp), (0, used_of f4.mp),
        (0, used_of fa.mp),
        (new_small_obj1.val, used_of new_small_obj1.mp),
        (new_small_obj2.val, used_of new_small_obj2.mp),
        (new_small_obj3.val, used_of new_small_obj3.mp)]

/-- Whether the mutex of the pool is held; a `NULL` or released pool has no
mutex to hold. -/
def lock_held : PoolRef → Bool
  | .valid p => p.mutex.locked
  | _ => false

/-- The capacity field `__size` as a client can read it; `none` when there is no
live pool or no block. -/
def size_of : PoolRef → Option Nat
  | .valid p => p.mp_block.map (fun b => b.__size)
  | _ => none

/-- Successive calls `mp_allocate(mp, m)` for the sizes `m` of a list, each on the
pool left by the call before, with nothing in between.  The result lists the
value returned by each call, in call order, and the final pool. -/
def alloc_seq (mp : PoolRef) : List Nat → Except Fault (List Nat × PoolRef)
  | [] => .ok ([], mp)
  | m_size :: rest =>
    match mp_allocate mp m_size with
    | .error f => .error f
    | .ok r =>
      match alloc_seq r.mp rest with
      | .error f => .error f
      | .ok (vals, mp1) => .ok (r.val :: vals, mp1)

/-- The calls of a sequence that succeeded (returned non-`NULL`), in call order,
each as the pair of the handle returned and the size requested. -/
def successes (vals sizes : List Nat) : List (Nat × Nat) :=
  (vals.zip sizes).filter (fun x => decide (x.1 ≠ NULL))

/-- The part of `mp_allocate` that runs before the mutex is taken (lines 57-70):
the `NULL` test, the size test and the capacity test.  `some r` is an early
return with result `r`; `none` means that the request is admitted and control
reaches `pthread_mutex_lock` on line 72. -/
def mp_allocate_check (mp : PoolRef) (m_size : Nat) : Except Fault (Option (Ret Nat)) :=
  match mp with
  | .null => .ok (some { val := NULL, mp := .null, out := [.memory_pool_is_NULL] })
  | .dangling =>
    if m_size ≤ 0 ∨ m_size > MAX_BLOCK_SIZE then
      .ok (some { val := NULL, mp := .dangling, out := [.invaild_memory_allocate_size] })
    else .error .use_after_free
  | .valid p =>
    if m_size ≤ 0 ∨ m_size > MAX_BLOCK_SIZE then
      .ok (some { val := NULL, mp := .valid p, out := [.invaild_memory_allocate_size] })
    else
      match p.mp_block with
      | none => .error .null_deref
      | some b =>
        if size_t_sub b.__size b.__used < m_size then
          .ok (some { val := NULL, mp := .valid p, out := [.the_memory_pool_is_full] })
        else .ok none

/-- The part of `mp_allocate` that runs with the mutex held (lines 72-78): lock,
read the watermark, advance it, unlock, return the old position.  It is
reached only with a live pool that has a block. -/
def mp_allocate_critical (mp : PoolRef) (m_size : Nat) : Except Fault (Ret Nat) :=
  match mp with
  | .null => .error .null_deref
  | .dangling => .error .use_after_free
  | .valid p =>
    match pthread_mutex_lock p.mutex with
    | none => .error .deadlock
    | some m1 =>
      match p.mp_block with
      | none => .error .null_deref
      | some b =>
        let current_pos := ptr_add b.__mem_start b.__used
        let b1 : memory_block_t := { b with __used := size_t_add b.__used m_size }
        .ok { val := current_pos,
              mp := .valid { mp_block := some b1, mutex := pthread_mutex_unlock m1 },
              out := [] }

/-! ## Machine arithmetic: lemmas -/

theorem size_t_sub_lt (a b : Nat) : size_t_sub a b < SIZE_MOD := by
  unfold size_t_sub; exact Nat.mod_lt _ (by unfold SIZE_MOD; norm_num)

theorem size_t_sub_of_le (a b : Nat) (hb : b ≤ a) (ha : a < SIZE_MOD) :
    size_t_sub a b = a - b := by
  unfold size_t_sub SIZE_MOD at *
  omega

theorem to_size_t_ptr_diff (p q : Nat) : to_size_t (ptr_diff p q) = size_t_sub p q := by
  have h := size_t_sub_lt p q
  unfold to_size_t ptr_diff
  simp only []
  unfold SIZE_MOD at *
  split <;> omega

theorem ptr_diff_nonneg_iff (p q : Nat) : ptr_diff p q ≥ 0 ↔ size_t_sub p q < 2 ^ 63 := by
  have h := size_t_sub_lt p q
  unfold ptr_diff
  simp only []
  unfold SIZE_MOD at *
  split <;> omega

theorem owned_test_iff (b : memory_block_t) (ptr : Nat) (has : in_address_space b)
    (hptr : ptr < SIZE_MOD) :
    (decide (to_size_t (ptr_diff ptr b.__mem_start) < b.__size)
      && decide (ptr_diff ptr b.__mem_start ≥ 0)) = true ↔
    (b.__mem_start ≤ ptr ∧ ptr < b.__mem_start + b.__size) := by
  rw [Bool.and_eq_true, decide_eq_true_iff, decide_eq_true_iff, to_size_t_ptr_diff,
    ptr_diff_nonneg_iff]
  obtain ⟨h1, h2⟩ := has
  unfold size_t_sub SIZE_MOD at *
  constructor
  · rintro ⟨h3, h4⟩
    omega
  · rintro ⟨h3, h4⟩
    omega

theorem is_mp_ptr_valid (p : memory_pool_t) (b : memory_block_t) (ptr : Nat)
    (hblk : p.mp_block = some b) (has : in_address_space b) (hptr : ptr < SIZE_MOD) :
    is_mp_ptr (.valid p) ptr =
      .ok (decide (ptr ≠ NULL ∧ b.__mem_start ≤ ptr ∧ ptr < b.__mem_start + b.__size),
           if ptr = NULL then [.your_ptr_is_NULL] else []) := by
  unfold is_mp_ptr
  by_cases h0 : ptr = NULL
  · simp [h0]
  · simp only [h0, if_false, hblk]
    congr 2
    rw [Bool.eq_iff_iff, owned_test_iff b ptr has hptr]
    simp [h0]

theorem mp_allocate_admit (p : memory_pool_t) (b : memory_block_t) (m_size : Nat)
    (hblk : p.mp_block = some b) (hlock : p.mutex.locked = false)
    (hsize : b.__size = MAX_BLOCK_SIZE) (hused : b.__used ≤ b.__size)
    (hpos : 0 < m_size) (hle : m_size ≤ MAX_BLOCK_SIZE - b.__used) :
    mp_allocate (.valid p) m_size =
      .ok { val := ptr_add b.__mem_start b.__used,
            mp := .valid { mp_block := some { b with __used := b.__used + m_size },
                           mutex := { locked := false } },
            out := [] } := by
  have h1 : ¬ (m_size ≤ 0 ∨ m_size > MAX_BLOCK_SIZE) := by
    unfold MAX_BLOCK_SIZE at *; omega
  have h2 : ¬ (size_t_sub b.__size b.__used < m_size) := by
    rw [size_t_sub_of_le _ _ hused (by rw [hsize]; unfold MAX_BLOCK_SIZE SIZE_MOD; norm_num),
      hsize]
    omega
  have h3 : size_t_add b.__used m_size = b.__used + m_size := by
    unfold size_t_add SIZE_MOD
    unfold MAX_BLOCK_SIZE at *
    omega
  unfold mp_allocate
  simp only [h1, if_false, hblk, h2, pthread_mutex_lock, hlock, pthread_mutex_unlock, h3]
  rfl

theorem mp_allocate_invalid_size (mp : PoolRef) (m_size : Nat)
    (h : m_size = 0 ∨ MAX_BLOCK_SIZE < m_size) :
    mp_allocate mp m_size =
      .ok { val := NULL, mp := mp,
            out := [if mp = .null then .memory_pool_is_NULL
                    else .invaild_memory_allocate_size] } := by
  have h1 : m_size ≤ 0 ∨ m_size > MAX_BLOCK_SIZE := by omega
  cases mp with
  | null => simp [mp_allocate]
  | dangling => simp only [mp_allocate, if_pos h1]; simp
  | valid p => simp only [mp_allocate, if_pos h1]; simp

theorem mp_allocate_full (p : memory_pool_t) (b : memory_block_t) (m_size : Nat)
    (hblk : p.mp_block = some b)
    (hsize : b.__size = MAX_BLOCK_SIZE) (hused : b.__used ≤ b.__size)
    (hpos : 0 < m_size) (hle : m_size ≤ MAX_BLOCK_SIZE)
    (hfull : MAX_BLOCK_SIZE - b.__used < m_size) :
    mp_allocate (.valid p) m_size =
      .ok { val := NULL, mp := .valid p, out := [.the_memory_pool_is_full] } := by
  have h1 : ¬ (m_size ≤ 0 ∨ m_size > MAX_BLOCK_SIZE) := by omega
  have h2 : size_t_sub b.__size b.__used < m_size := by
    rw [size_t_sub_of_le _ _ hused (by rw [hsize]; unfold MAX_BLOCK_SIZE SIZE_MOD; norm_num),
      hsize]
    exact hfull
  unfold mp_allocate
  simp only [h1, if_false, hblk, h2, if_true]

theorem free_memory_accept (p : memory_pool_t) (b : memory_block_t) (ptr : Nat)
    (hblk : p.mp_block = some b) (hlock : p.mutex.locked = false)
    (has : in_address_space b) (hptr : ptr < SIZE_MOD) (h0 : ptr ≠ NULL)
    (hlo : b.__mem_start ≤ ptr) (hhi : ptr < b.__mem_start + b.__size) :
    free_memory (.valid p) ptr =
      .ok { val := (),
            mp := .valid { mp_block := some { b with __used := ptr - b.__mem_start },
                           mutex := { locked := false } },
            out := [.free_addr_memory_success ptr] } := by
  have hown := is_mp_ptr_valid { p with mutex := { locked := true } } b ptr hblk has hptr
  have hd : decide (ptr ≠ NULL ∧ b.__mem_start ≤ ptr ∧ ptr < b.__mem_start + b.__size) = true :=
    decide_eq_true ⟨h0, hlo, hhi⟩
  have hu : to_size_t (ptr_diff ptr b.__mem_start) = ptr - b.__mem_start := by
    rw [to_size_t_ptr_diff]
    unfold size_t_sub SIZE_MOD at *
    omega
  rw [hd, if_neg h0] at hown
  simp only [hblk] at hown
  unfold free_memory
  simp only [pthread_mutex_lock, hlock, pthread_mutex_unlock]
  simp only [Bool.false_eq_true, if_false, hown, hblk, hu, List.nil_append]

theorem free_memory_reject (p : memory_pool_t) (b : memory_block_t) (ptr : Nat)
    (hblk : p.mp_block = some b) (hlock : p.mutex.locked = false)
    (hfit : b.__mem_start + b.__size ≤ SIZE_MOD) (hptr : ptr < SIZE_MOD)
    (hout : ptr = NULL ∨ ptr < b.__mem_start ∨ b.__mem_start + b.__size ≤ ptr) :
    free_memory (.valid p) ptr =
      .ok { val := (), mp := .valid p,
            out := (if ptr = NULL then [.your_ptr_is_NULL] else [])
                    ++ [.your_ptr_is_not_in_the_memory_pool] } := by
  have hp : ({ mp_block := p.mp_block, mutex := { locked := false } } : memory_pool_t) = p := by
    cases p with
    | mk blk m => cases m with
      | mk l => simp only [] at hlock; subst hlock; rfl
  unfold free_memory
  simp only [pthread_mutex_lock, hlock, pthread_mutex_unlock, Bool.false_eq_true, if_false]
  by_cases h0 : ptr = NULL
  · simp only [is_mp_ptr, h0, if_true, hp]
  · have hno : (decide (to_size_t (ptr_diff ptr b.__mem_start) < b.__size)
        && decide (ptr_diff ptr b.__mem_start ≥ 0)) = false := by
      rw [Bool.and_eq_false_iff]
      left
      rw [decide_eq_false_iff_not, to_size_t_ptr_diff]
      unfold size_t_sub SIZE_MOD at *
      omega
    rw [hblk] at hp
    simp only [is_mp_ptr, h0, if_false, hblk, hno, hp]

theorem free_all_memory_reset (p : memory_pool_t) (b : memory_block_t) (buf : Nat)
    (hblk : p.mp_block = some b) (hlock : p.mutex.locked = false) :
    free_all_memory (.valid p) true buf =
      .ok { val := (), mp := mk_pool buf 0, out := [.free_all_allocated_memory_success] } := by
  unfold free_all_memory
  simp only [pthread_mutex_lock, hlock, pthread_mutex_unlock, hblk]
  rfl

/-! ## The operations on a pool of the shape `mk_pool` -/

theorem mp_allocate_mk_pool (base used m_size : Nat) (hfit : base + MAX_BLOCK_SIZE ≤ SIZE_MOD)
    (hpos : 0 < m_size) (hle : used + m_size ≤ MAX_BLOCK_SIZE) :
    mp_allocate (mk_pool base used) m_size =
      .ok { val := base + used, mp := mk_pool base (used + m_size), out := [] } := by
  have h := mp_allocate_admit
    { mp_block := some { __mem_start := base, __size := MAX_BLOCK_SIZE, __used := used },
      mutex := { locked := false } }
    { __mem_start := base, __size := MAX_BLOCK_SIZE, __used := used } m_size rfl rfl rfl
    (by show used ≤ MAX_BLOCK_SIZE; omega) hpos (by show m_size ≤ MAX_BLOCK_SIZE - used; omega)
  have hadd : ptr_add base used = base + used := by
    unfold ptr_add SIZE_MOD MAX_BLOCK_SIZE at *
    omega
  simp only [hadd] at h
  exact h

theorem mp_allocate_mk_pool_full (base used m_size : Nat) (hused : used ≤ MAX_BLOCK_SIZE)
    (hpos : 0 < m_size) (hle : m_size ≤ MAX_BLOCK_SIZE) (hfull : MAX_BLOCK_SIZE < used + m_size) :
    mp_allocate (mk_pool base used) m_size =
      .ok { val := NULL, mp := mk_pool base used, out := [.the_memory_pool_is_full] } :=
  mp_allocate_full
    { mp_block := some { __mem_start := base, __size := MAX_BLOCK_SIZE, __used := used },
      mutex := { locked := false } }
    { __mem_start := base, __size := MAX_BLOCK_SIZE, __used := used } m_size rfl rfl
    hused hpos hle (by show MAX_BLOCK_SIZE - used < m_size; omega)

theorem free_memory_mk_pool (base used ptr : Nat) (hfit : base + MAX_BLOCK_SIZE ≤ SIZE_MOD)
    (hptr : ptr < SIZE_MOD) :
    ∃ out, free_memory (mk_pool base used) ptr =
      .ok { val := (),
            mp := mk_pool base
              (if ptr ≠ NULL ∧ base ≤ ptr ∧ ptr < base + MAX_BLOCK_SIZE then ptr - base else used),
            out := out } := by
  have has : in_address_space
      { __mem_start := base, __size := MAX_BLOCK_SIZE, __used := used } :=
    ⟨hfit, by show MAX_BLOCK_SIZE < 2 ^ 63; unfold MAX_BLOCK_SIZE; norm_num⟩
  by_cases hin : ptr ≠ NULL ∧ base ≤ ptr ∧ ptr < base + MAX_BLOCK_SIZE
  · rw [if_pos hin]
    exact ⟨_, free_memory_accept _ _ ptr rfl rfl has hptr hin.1 hin.2.1 hin.2.2⟩
  · rw [if_neg hin]
    refine ⟨_, free_memory_reject _ _ ptr rfl rfl hfit hptr ?_⟩
    show ptr = NULL ∨ ptr < base ∨ base + MAX_BLOCK_SIZE ≤ ptr
    by_cases h0 : ptr = NULL
    · exact Or.inl h0
    · right
      simp only [ne_eq, h0, not_false_eq_true, true_and, not_and, not_lt] at hin
      omega

/-! ## The invariant along a run -/

theorem block_inv_used_le_size (mp : PoolRef) (h : block_inv mp) : used_le_size mp := by
  cases mp with
  | null => trivial
  | dangling => trivial
  | valid p =>
    simp only [block_inv] at h
    simp only [used_le_size]
    cases hb : p.mp_block with
    | none => trivial
    | some b => simp only [hb] at h ⊢; exact h.1

theorem mp_allocate_block_inv (mp : PoolRef) (m_size : Nat) (r : Ret Nat)
    (hinv : block_inv mp) (h : mp_allocate mp m_size = .ok r) : block_inv r.mp := by
  cases mp with
  | null =>
    simp only [mp_allocate, Except.ok.injEq] at h
    subst h; trivial
  | dangling =>
    by_cases hc : m_size ≤ 0 ∨ m_size > MAX_BLOCK_SIZE
    · simp only [mp_allocate, if_pos hc, Except.ok.injEq] at h; subst h; trivial
    · simp only [mp_allocate, if_neg hc] at h; cases h
  | valid p =>
    by_cases hc : m_size ≤ 0 ∨ m_size > MAX_BLOCK_SIZE
    · simp only [mp_allocate, if_pos hc, Except.ok.injEq] at h; subst h; exact hinv
    · simp only [mp_allocate, if_neg hc] at h
      cases hb : p.mp_block with
      | none => simp only [hb] at h; cases h
      | some b =>
        simp only [hb] at h
        have hbi : b.__used ≤ b.__size ∧ b.__size = MAX_BLOCK_SIZE := by
          simp only [block_inv, hb] at hinv
          exact hinv
        by_cases hroom : size_t_sub b.__size b.__used < m_size
        · simp only [if_pos hroom, Except.ok.injEq] at h; subst h; exact hinv
        · simp only [if_neg hroom] at h
          cases hl : pthread_mutex_lock p.mutex with
          | none => simp only [hl] at h; cases h
          | some m1 =>
            simp only [hl, Except.ok.injEq] at h
            subst h
            rw [size_t_sub_of_le _ _ hbi.1
              (by rw [hbi.2]; unfold MAX_BLOCK_SIZE SIZE_MOD; norm_num)] at hroom
            show size_t_add b.__used m_size ≤ b.__size ∧ b.__size = MAX_BLOCK_SIZE
            refine ⟨?_, hbi.2⟩
            obtain ⟨h1, h2⟩ := hbi
            unfold size_t_add SIZE_MOD MAX_BLOCK_SIZE at *
            omega

theorem free_memory_block_inv (mp : PoolRef) (ptr : Nat) (r : Ret Unit)
    (hinv : block_inv mp) (h : free_memory mp ptr = .ok r) : block_inv r.mp := by
  cases mp with
  | null =>
    simp only [free_memory, Except.ok.injEq] at h
    subst h; trivial
  | dangling => simp only [free_memory] at h; cases h
  | valid p =>
    unfold free_memory at h
    simp only [] at h
    cases hl : pthread_mutex_lock p.mutex with
    | none => simp only [hl] at h; cases h
    | some m1 =>
      simp only [hl] at h
      by_cases h0 : ptr = NULL
      · simp only [is_mp_ptr, h0, if_true, Except.ok.injEq] at h
        subst h
        exact hinv
      · cases hb : p.mp_block with
        | none => simp only [is_mp_ptr, h0, if_false, hb] at h; cases h
        | some b =>
          have hbi : b.__used ≤ b.__size ∧ b.__size = MAX_BLOCK_SIZE := by
            simp only [block_inv, hb] at hinv
            exact hinv
          simp only [is_mp_ptr, h0, if_false, hb] at h
          cases hd : (decide (to_size_t (ptr_diff ptr b.__mem_start) < b.__size)
              && decide (ptr_diff ptr b.__mem_start ≥ 0)) with
          | false =>
            simp only [hd, Except.ok.injEq] at h
            subst h
            show block_inv (.valid { mp_block := some b, mutex := _ })
            exact hbi
          | true =>
            simp only [hd, Except.ok.injEq] at h
            subst h
            rw [Bool.and_eq_true, decide_eq_true_iff] at hd
            show to_size_t (ptr_diff ptr b.__mem_start) ≤ b.__size ∧ b.__size = MAX_BLOCK_SIZE
            exact ⟨Nat.le_of_lt hd.1, hbi.2⟩

theorem free_all_memory_block_inv (mp : PoolRef) (block_ok : Bool) (buf : Nat) (r : Ret Unit)
    (hinv : block_inv mp) (h : free_all_memory mp block_ok buf = .ok r) : block_inv r.mp := by
  cases mp with
  | null =>
    simp only [free_all_memory, Except.ok.injEq] at h
    subst h; trivial
  | dangling => simp only [free_all_memory] at h; cases h
  | valid p =>
    unfold free_all_memory at h
    simp only [] at h
    cases hl : pthread_mutex_lock p.mutex with
    | none => simp only [hl] at h; cases h
    | some m1 =>
      simp only [hl] at h
      cases hb : p.mp_block with
      | none =>
        simp only [hb, Except.ok.injEq] at h
        subst h
        simp only [block_inv]
      | some b =>
        simp only [hb] at h
        cases block_ok with
        | false =>
          simp only [Bool.not_false, if_true, Except.ok.injEq] at h
          subst h; trivial
        | true =>
          simp only [Bool.not_true, Bool.false_eq_true, if_false, Except.ok.injEq] at h
          subst h
          show (0 : Nat) ≤ MAX_BLOCK_SIZE ∧ MAX_BLOCK_SIZE = MAX_BLOCK_SIZE
          exact ⟨Nat.zero_le _, rfl⟩

theorem step_block_inv (mp mp1 : PoolRef) (op : Op)
    (hinv : block_inv mp) (h : step mp op = .ok mp1) : block_inv mp1 := by
  cases op with
  | allocate m_size =>
    unfold step at h
    simp only [] at h
    cases hr : mp_allocate mp m_size with
    | error f => rw [hr] at h; cases h
    | ok r =>
      rw [hr] at h
      simp only [Except.map, Except.ok.injEq] at h
      subst h
      exact mp_allocate_block_inv mp m_size r hinv hr
  | free ptr =>
    unfold step at h
    simp only [] at h
    cases hr : free_memory mp ptr with
    | error f => rw [hr] at h; cases h
    | ok r =>
      rw [hr] at h
      simp only [Except.map, Except.ok.injEq] at h
      subst h
      exact free_memory_block_inv mp ptr r hinv hr
  | free_all block_ok buf =>
    unfold step at h
    simp only [] at h
    cases hr : free_all_memory mp block_ok buf with
    | error f => rw [hr] at h; cases h
    | ok r =>
      rw [hr] at h
      simp only [Except.map, Except.ok.injEq] at h
      subst h
      exact free_all_memory_block_inv mp block_ok buf r hinv hr

theorem run_block_inv (ops : List Op) :
    ∀ (mp mp1 : PoolRef), block_inv mp → run mp ops = .ok mp1 → block_inv mp1 := by
  induction ops with
  | nil =>
    intro mp mp1 hinv h
    simp only [run, Except.ok.injEq] at h
    subst h
    exact hinv
  | cons op ops ih =>
    intro mp mp1 hinv h
    unfold run at h
    cases hs : step mp op with
    | error f => rw [hs] at h; cases h
    | ok mp2 =>
      rw [hs] at h
      exact ih mp2 mp1 (step_block_inv mp mp2 op hinv hs) h

theorem init_memory_pool_block_inv (pool_ok block_ok : Bool) (buf : Nat) (mutex_ok : Bool) :
    block_inv (init_memory_pool pool_ok block_ok buf mutex_ok).mp := by
  unfold init_memory_pool
  cases pool_ok <;> cases block_ok <;> cases mutex_ok <;> simp [block_inv]

/-! ## Calls on a live pool return -/

theorem mp_allocate_mk_pool_returns (base used m_size : Nat) (hused : used ≤ MAX_BLOCK_SIZE) :
    ∃ (r : Ret Nat) (used1 : Nat), mp_allocate (mk_pool base used) m_size = .ok r ∧
      r.mp = mk_pool base used1 ∧ used1 ≤ MAX_BLOCK_SIZE := by
  by_cases hc : m_size = 0 ∨ MAX_BLOCK_SIZE < m_size
  · exact ⟨_, used, mp_allocate_invalid_size _ m_size hc, rfl, hused⟩
  · by_cases hfull : MAX_BLOCK_SIZE < used + m_size
    · exact ⟨_, used, mp_allocate_mk_pool_full base used m_size hused (by omega) (by omega) hfull,
        rfl, hused⟩
    · refine ⟨_, used + m_size, mp_allocate_admit
        { mp_block := some { __mem_start := base, __size := MAX_BLOCK_SIZE, __used := used },
          mutex := { locked := false } }
        { __mem_start := base, __size := MAX_BLOCK_SIZE, __used := used } m_size rfl rfl rfl
        hused (by omega) (by show m_size ≤ MAX_BLOCK_SIZE - used; omega), rfl, by omega⟩

theorem free_memory_mk_pool_returns (base used ptr : Nat) (hused : used ≤ MAX_BLOCK_SIZE) :
    ∃ (r : Ret Unit) (used1 : Nat), free_memory (mk_pool base used) ptr = .ok r ∧
      r.mp = mk_pool base used1 ∧ used1 ≤ MAX_BLOCK_SIZE := by
  by_cases h0 : ptr = NULL
  · refine ⟨{ val := (), mp := mk_pool base used,
              out := [.your_ptr_is_NULL, .your_ptr_is_not_in_the_memory_pool] },
      used, ?_, rfl, hused⟩
    simp only [free_memory, mk_pool, pthread_mutex_lock, pthread_mutex_unlock, is_mp_ptr, h0,
      Bool.false_eq_true, if_false, if_true, List.singleton_append]
  · cases hd : (decide (to_size_t (ptr_diff ptr base) < MAX_BLOCK_SIZE)
        && decide (ptr_diff ptr base ≥ 0)) with
    | false =>
      refine ⟨{ val := (), mp := mk_pool base used,
                out := [.your_ptr_is_not_in_the_memory_pool] }, used, ?_, rfl, hused⟩
      simp only [free_memory, mk_pool, pthread_mutex_lock, pthread_mutex_unlock, is_mp_ptr, h0,
        Bool.false_eq_true, if_false, hd, List.nil_append]
    | true =>
      refine ⟨{ val := (), mp := mk_pool base (to_size_t (ptr_diff ptr base)),
                out := [.free_addr_memory_success ptr] },
        to_size_t (ptr_diff ptr base), ?_, rfl, ?_⟩
      · simp only [free_memory, mk_pool, pthread_mutex_lock, pthread_mutex_unlock, is_mp_ptr, h0,
          Bool.false_eq_true, if_false, hd, List.nil_append]
      · rw [Bool.and_eq_true, decide_eq_true_iff] at hd
        exact Nat.le_of_lt hd.1

theorem step_mk_pool_returns (base used : Nat) (op : Op) (hused : used ≤ MAX_BLOCK_SIZE)
    (hok : op.block_malloc_ok = true) :
    ∃ base1 used1, step (mk_pool base used) op = .ok (mk_pool base1 used1) ∧
      used1 ≤ MAX_BLOCK_SIZE := by
  cases op with
  | allocate m_size =>
    obtain ⟨r, used1, hr, hmp, hle⟩ := mp_allocate_mk_pool_returns base used m_size hused
    refine ⟨base, used1, ?_, hle⟩
    simp only [step, hr, Except.map, hmp]
  | free ptr =>
    obtain ⟨r, used1, hr, hmp, hle⟩ := free_memory_mk_pool_returns base used ptr hused
    refine ⟨base, used1, ?_, hle⟩
    simp only [step, hr, Except.map, hmp]
  | free_all block_ok buf =>
    simp only [Op.block_malloc_ok] at hok
    subst hok
    refine ⟨buf, 0, ?_, Nat.zero_le _⟩
    have hr := free_all_memory_reset
      { mp_block := some { __mem_start := base, __size := MAX_BLOCK_SIZE, __used := used },
        mutex := { locked := false } }
      { __mem_start := base, __size := MAX_BLOCK_SIZE, __used := used } buf rfl rfl
    show Except.map (fun r => r.mp) (free_all_memory (mk_pool base used) true buf) = _
    unfold mk_pool at hr ⊢
    rw [hr]
    rfl

theorem run_mk_pool_returns (ops : List Op) :
    ∀ (base used : Nat), used ≤ MAX_BLOCK_SIZE → (∀ op ∈ ops, op.block_malloc_ok = true) →
      ∃ base1 used1, run (mk_pool base used) ops = .ok (mk_pool base1 used1) ∧
        used1 ≤ MAX_BLOCK_SIZE := by
  induction ops with
  | nil =>
    intro base used hused _
    exact ⟨base, used, rfl, hused⟩
  | cons op ops ih =>
    intro base used hused hok
    obtain ⟨base1, used1, hs, hle⟩ :=
      step_mk_pool_returns base used op hused (hok op (List.mem_cons_self _ _))
    obtain ⟨base2, used2, hr, hle2⟩ :=
      ih base1 used1 hle (fun o ho => hok o (List.mem_cons_of_mem _ ho))
    refine ⟨base2, used2, ?_, hle2⟩
    simp only [run, hs, hr]

theorem step_null (op : Op) : step .null op = .ok .null := by
  cases op <;> rfl

theorem run_null (ops : List Op) : run .null ops = .ok .null := by
  induction ops with
  | nil => rfl
  | cons op ops ih => simp only [run, step_null, ih]

theorem init_memory_pool_null_or_mk_pool (pool_ok block_ok : Bool) (buf : Nat)
    (mutex_ok : Bool) :
    ((init_memory_pool pool_ok block_ok buf mutex_ok).mp = .null ∧
        (pool_ok && block_ok && mutex_ok) = false) ∨
      ((init_memory_pool pool_ok block_ok buf mutex_ok).mp = mk_pool buf 0 ∧
        (pool_ok && block_ok && mutex_ok) = true) := by
  cases pool_ok <;> cases block_ok <;> cases mutex_ok <;> simp [init_memory_pool, mk_pool]

/-! ## The capacity field -/

theorem mp_allocate_size_of (mp : PoolRef) (m_size : Nat) (r : Ret Nat)
    (h : mp_allocate mp m_size = .ok r) : size_of r.mp = size_of mp := by
  cases mp with
  | null =>
    simp only [mp_allocate, Except.ok.injEq] at h
    subst h; rfl
  | dangling =>
    by_cases hc : m_size ≤ 0 ∨ m_size > MAX_BLOCK_SIZE
    · simp only [mp_allocate, if_pos hc, Except.ok.injEq] at h; subst h; rfl
    · simp only [mp_allocate, if_neg hc] at h; cases h
  | valid p =>
    by_cases hc : m_size ≤ 0 ∨ m_size > MAX_BLOCK_SIZE
    · simp only [mp_allocate, if_pos hc, Except.ok.injEq] at h; subst h; rfl
    · simp only [mp_allocate, if_neg hc] at h
      cases hb : p.mp_block with
      | none => simp only [hb] at h; cases h
      | some b =>
        simp only [hb] at h
        by_cases hroom : size_t_sub b.__size b.__used < m_size
        · simp only [if_pos hroom, Except.ok.injEq] at h; subst h; rfl
        · simp only [if_neg hroom] at h
          cases hl : pthread_mutex_lock p.mutex with
          | none => simp only [hl] at h; cases h
          | some m1 =>
            simp only [hl, Except.ok.injEq] at h
            subst h
            simp only [size_of, hb, Option.map_some']

theorem free_memory_size_of (mp : PoolRef) (ptr : Nat) (r : Ret Unit)
    (h : free_memory mp ptr = .ok r) : size_of r.mp = size_of mp := by
  cases mp with
  | null =>
    simp only [free_memory, Except.ok.injEq] at h
    subst h; rfl
  | dangling => simp only [free_memory] at h; cases h
  | valid p =>
    unfold free_memory at h
    simp only [] at h
    cases hl : pthread_mutex_lock p.mutex with
    | none => simp only [hl] at h; cases h
    | some m1 =>
      simp only [hl] at h
      by_cases h0 : ptr = NULL
      · simp only [is_mp_ptr, h0, if_true, Except.ok.injEq] at h
        subst h
        rfl
      · cases hb : p.mp_block with
        | none => simp only [is_mp_ptr, h0, if_false, hb] at h; cases h
        | some b =>
          simp only [is_mp_ptr, h0, if_false, hb] at h
          cases hd : (decide (to_size_t (ptr_diff ptr b.__mem_start) < b.__size)
              && decide (ptr_diff ptr b.__mem_start ≥ 0)) with
          | false =>
            simp only [hd, Except.ok.injEq] at h
            subst h
            simp only [size_of, hb, Option.map_some']
          | true =>
            simp only [hd, Except.ok.injEq] at h
            subst h
            simp only [size_of, hb, Option.map_some']

theorem free_all_memory_size_of (mp : PoolRef) (block_ok : Bool) (buf : Nat) (r : Ret Unit)
    (h : free_all_memory mp block_ok buf = .ok r) :
    size_of r.mp = some MAX_BLOCK_SIZE ∨ size_of r.mp = none := by
  cases mp with
  | null =>
    simp only [free_all_memory, Except.ok.injEq] at h
    subst h; exact Or.inr rfl
  | dangling => simp only [free_all_memory] at h; cases h
  | valid p =>
    unfold free_all_memory at h
    simp only [] at h
    cases hl : pthread_mutex_lock p.mutex with
    | none => simp only [hl] at h; cases h
    | some m1 =>
      simp only [hl] at h
      cases hb : p.mp_block with
      | none =>
        simp only [hb, Except.ok.injEq] at h
        subst h
        right
        simp only [size_of, Option.map_none']
      | some b =>
        simp only [hb] at h
        cases block_ok with
        | false =>
          simp only [Bool.not_false, if_true, Except.ok.injEq] at h
          subst h; exact Or.inr rfl
        | true =>
          simp only [Bool.not_true, Bool.false_eq_true, if_false, Except.ok.injEq] at h
          subst h
          exact Or.inl rfl

theorem block_inv_size_of (mp : PoolRef) (h : block_inv mp) :
    size_of mp = some MAX_BLOCK_SIZE ∨ size_of mp = none := by
  cases mp with
  | null => exact Or.inr rfl
  | dangling => exact Or.inr rfl
  | valid p =>
    simp only [block_inv] at h
    cases hb : p.mp_block with
    | none => right; simp only [size_of, hb, Option.map_none']
    | some b =>
      simp only [hb] at h
      left
      simp only [size_of, hb, Option.map_some', h.2]

/-! ## The mutex at return -/

theorem mp_allocate_lock_held (p : memory_pool_t) (m_size : Nat) (r : Ret Nat)
    (hlock : p.mutex.locked = false) (h : mp_allocate (.valid p) m_size = .ok r) :
    lock_held r.mp = false := by
  by_cases hc : m_size ≤ 0 ∨ m_size > MAX_BLOCK_SIZE
  · simp only [mp_allocate, if_pos hc, Except.ok.injEq] at h; subst h; exact hlock
  · simp only [mp_allocate, if_neg hc] at h
    cases hb : p.mp_block with
    | none => simp only [hb] at h; cases h
    | some b =>
      simp only [hb] at h
      by_cases hroom : size_t_sub b.__size b.__used < m_size
      · simp only [if_pos hroom, Except.ok.injEq] at h; subst h; exact hlock
      · simp only [if_neg hroom] at h
        cases hl : pthread_mutex_lock p.mutex with
        | none => simp only [hl] at h; cases h
        | some m1 =>
          simp only [hl, Except.ok.injEq] at h
          subst h
          rfl

theorem free_memory_lock_held (p : memory_pool_t) (ptr : Nat) (r : Ret Unit)
    (h : free_memory (.valid p) ptr = .ok r) : lock_held r.mp = false := by
  unfold free_memory at h
  simp only [] at h
  cases hl : pthread_mutex_lock p.mutex with
  | none => simp only [hl] at h; cases h
  | some m1 =>
    simp only [hl] at h
    by_cases h0 : ptr = NULL
    · simp only [is_mp_ptr, h0, if_true, Except.ok.injEq] at h
      subst h
      rfl
    · cases hb : p.mp_block with
      | none => simp only [is_mp_ptr, h0, if_false, hb] at h; cases h
      | some b =>
        simp only [is_mp_ptr, h0, if_false, hb] at h
        cases hd : (decide (to_size_t (ptr_diff ptr b.__mem_start) < b.__size)
            && decide (ptr_diff ptr b.__mem_start ≥ 0)) with
        | false =>
          simp only [hd, Except.ok.injEq] at h
          subst h
          rfl
        | true =>
          simp only [hd, Except.ok.injEq] at h
          subst h
          rfl

theorem destroy_memory_pool_full (p : memory_pool_t) (b : memory_block_t) (live : List Res)
    (hblk : p.mp_block = some b) (hlock : p.mutex.locked = false) :
    destroy_memory_pool (.valid p) live =
      .ok { mp := .dangling,
            live := heap_free (heap_free (heap_free live (.buffer b.__mem_start))
                      .block_struct) .pool_struct,
            out := [] } := by
  unfold destroy_memory_pool
  simp only [pthread_mutex_lock, hlock, hblk]
  rfl

/-! ## The two phases of `mp_allocate` -/

theorem mp_allocate_eq_check_then_critical (mp : PoolRef) (m_size : Nat) :
    mp_allocate mp m_size =
      match mp_allocate_check mp m_size with
      | .error f => .error f
      | .ok (some r) => .ok r
      | .ok none => mp_allocate_critical mp m_size := by
  cases mp with
  | null => rfl
  | dangling =>
    by_cases hc : m_size ≤ 0 ∨ m_size > MAX_BLOCK_SIZE
    · simp only [mp_allocate, mp_allocate_check, if_pos hc]
    · simp only [mp_allocate, mp_allocate_check, if_neg hc]
  | valid p =>
    by_cases hc : m_size ≤ 0 ∨ m_size > MAX_BLOCK_SIZE
    · simp only [mp_allocate, mp_allocate_check, if_pos hc]
    · cases hb : p.mp_block with
      | none => simp only [mp_allocate, mp_allocate_check, if_neg hc, hb]
      | some b =>
        by_cases hroom : size_t_sub b.__size b.__used < m_size
        · simp only [mp_allocate, mp_allocate_check, if_neg hc, hb, if_pos hroom]
        · simp only [mp_allocate, mp_allocate_check, mp_allocate_critical, if_neg hc, hb,
            if_neg hroom]

/-! ## Successful allocations -/

theorem mp_allocate_success (p : memory_pool_t) (b : memory_block_t) (m_size : Nat)
    (r : Ret Nat) (hblk : p.mp_block = some b) (hused : b.__used ≤ b.__size)
    (has : in_address_space b)
    (h : mp_allocate (.valid p) m_size = .ok r) (hval : r.val ≠ NULL) :
    p.mutex.locked = false ∧ 0 < m_size ∧ b.__used + m_size ≤ b.__size ∧
      r.val = b.__mem_start + b.__used ∧ r.out = [] ∧
      r.mp = .valid { mp_block := some { b with __used := b.__used + m_size },
                      mutex := { locked := false } } := by
  have hfit := has.1
  have hlt := has.2
  by_cases hc : m_size ≤ 0 ∨ m_size > MAX_BLOCK_SIZE
  · simp only [mp_allocate, if_pos hc, Except.ok.injEq] at h
    subst h
    exact absurd rfl hval
  · simp only [mp_allocate, if_neg hc, hblk] at h
    by_cases hroom : size_t_sub b.__size b.__used < m_size
    · simp only [if_pos hroom, Except.ok.injEq] at h
      subst h
      exact absurd rfl hval
    · simp only [if_neg hroom] at h
      rw [size_t_sub_of_le _ _ hused (by unfold SIZE_MOD; omega)] at hroom
      cases hl : p.mutex.locked with
      | true => simp only [pthread_mutex_lock, hl, if_true] at h; cases h
      | false =>
        simp only [pthread_mutex_lock, hl, Bool.false_eq_true, if_false, pthread_mutex_unlock,
          Except.ok.injEq] at h
        subst h
        have hadd : size_t_add b.__used m_size = b.__used + m_size := by
          unfold size_t_add SIZE_MOD at *
          omega
        have hptr : ptr_add b.__mem_start b.__used = b.__mem_start + b.__used := by
          unfold ptr_add SIZE_MOD at *
          omega
        refine ⟨rfl, by omega, by omega, hptr, rfl, ?_⟩
        simp only [hadd]

theorem successes_cons_null (vals sizes : List Nat) (m_size : Nat) :
    successes (NULL :: vals) (m_size :: sizes) = successes vals sizes := by
  simp [successes]

theorem successes_cons_handle (vals sizes : List Nat) (v m_size : Nat) (hv : v ≠ NULL) :
    successes (v :: vals) (m_size :: sizes) = (v, m_size) :: successes vals sizes := by
  simp [successes, hv]

theorem alloc_seq_mk_pool (sizes : List Nat) :
    ∀ (base used : Nat), base ≠ NULL → base + MAX_BLOCK_SIZE ≤ SIZE_MOD →
      used ≤ MAX_BLOCK_SIZE →
      ∃ (vals : List Nat) (used1 : Nat),
        alloc_seq (mk_pool base used) sizes = .ok (vals, mk_pool base used1) ∧
        used ≤ used1 ∧ used1 ≤ MAX_BLOCK_SIZE ∧
        (∀ x ∈ successes vals sizes,
          base + used ≤ x.1 ∧ x.1 + x.2 ≤ base + used1 ∧ 0 < x.2) ∧
        (successes vals sizes).Pairwise (fun x y => x.1 + x.2 ≤ y.1) := by
  induction sizes with
  | nil =>
    intro base used _ _ hused
    exact ⟨[], used, rfl, Nat.le_refl _, hused, by simp [successes], by simp [successes]⟩
  | cons m_size rest ih =>
    intro base used hbuf hfit hused
    by_cases hc : m_size = 0 ∨ MAX_BLOCK_SIZE < m_size
    · obtain ⟨vals, used1, hseq, hle, hmax, hin, hpw⟩ := ih base used hbuf hfit hused
      refine ⟨NULL :: vals, used1, ?_, hle, hmax, ?_, ?_⟩
      · simp only [alloc_seq, mp_allocate_invalid_size _ m_size hc, hseq]
      · rw [successes_cons_null]; exact hin
      · rw [successes_cons_null]; exact hpw
    · by_cases hfull : MAX_BLOCK_SIZE < used + m_size
      · obtain ⟨vals, used1, hseq, hle, hmax, hin, hpw⟩ := ih base used hbuf hfit hused
        refine ⟨NULL :: vals, used1, ?_, hle, hmax, ?_, ?_⟩
        · simp only [alloc_seq,
            mp_allocate_mk_pool_full base used m_size hused (by omega) (by omega) hfull, hseq]
        · rw [successes_cons_null]; exact hin
        · rw [successes_cons_null]; exact hpw
      · obtain ⟨vals, used1, hseq, hle, hmax, hin, hpw⟩ :=
          ih base (used + m_size) hbuf hfit (by omega)
        have hv : base + used ≠ NULL := by
          intro h0
          apply hbuf
          unfold NULL at *
          omega
        refine ⟨(base + used) :: vals, used1, ?_, by omega, hmax, ?_, ?_⟩
        · simp only [alloc_seq,
            mp_allocate_mk_pool base used m_size hfit (by omega) (by omega), hseq]
        · rw [successes_cons_handle _ _ _ _ hv]
          intro x hx
          rcases List.mem_cons.mp hx with hx | hx
          · subst hx
            exact ⟨Nat.le_refl _, by show base + used + m_size ≤ base + used1; omega,
              by show 0 < m_size; omega⟩
          · have := hin x hx
            omega
        · rw [successes_cons_handle _ _ _ _ hv]
          refine List.Pairwise.cons ?_ hpw
          intro y hy
          have := hin y hy
          show base + used + m_size ≤ y.1
          omega

theorem alloc_seq_length (sizes : List Nat) :
    ∀ (mp mp1 : PoolRef) (vals : List Nat),
      alloc_seq mp sizes = .ok (vals, mp1) → vals.length = sizes.length := by
  induction sizes with
  | nil =>
    intro mp mp1 vals h
    simp only [alloc_seq, Except.ok.injEq, Prod.mk.injEq] at h
    rw [← h.1]
  | cons m_size rest ih =>
    intro mp mp1 vals h
    unfold alloc_seq at h
    cases hr : mp_allocate mp m_size with
    | error f => rw [hr] at h; cases h
    | ok r =>
      rw [hr] at h
      simp only [] at h
      cases hs : alloc_seq r.mp rest with
      | error f => rw [hs] at h; cases h
      | ok res =>
        obtain ⟨vals1, mp2⟩ := res
        rw [hs] at h
        simp only [Except.ok.injEq, Prod.mk.injEq] at h
        rw [← h.1, List.length_cons, List.length_cons, ih r.mp mp2 vals1 hs]

theorem alloc_seq_replicate (s : Nat) (hs : 0 < s) (base : Nat)
    (hfit : base + MAX_BLOCK_SIZE ≤ SIZE_MOD) (n : Nat) :
    ∀ used, used + n * s ≤ MAX_BLOCK_SIZE →
      alloc_seq (mk_pool base used) (List.replicate n s) =
        .ok ((List.range n).map (fun i => base + (used + i * s)),
             mk_pool base (used + n * s)) := by
  induction n with
  | zero =>
    intro used _
    simp [alloc_seq]
  | succ n ih =>
    intro used hle
    have hmul : (n + 1) * s = n * s + s := Nat.succ_mul n s
    have h1 := mp_allocate_mk_pool base used s hfit hs (by omega)
    have h2 := ih (used + s) (by omega)
    rw [List.replicate_succ, List.range_succ_eq_map, List.map_cons, List.map_map]
    simp only [alloc_seq, h1, h2]
    have hfun : ((fun i => base + (used + i * s)) ∘ Nat.succ) =
        (fun i => base + (used + s + i * s)) := by
      funext i
      show base + (used + (i + 1) * s) = base + (used + s + i * s)
      rw [Nat.succ_mul]
      omega
    have hend : used + s + n * s = used + (n + 1) * s := by omega
    rw [hfun, hend, Nat.zero_mul]
    rfl
/-- C1: on a pool whose block has `used ≤ size = 1024`, whose buffer is a real
allocation (non-`NULL`, inside the address space) and whose mutex is free,
every request with `0 < m_size ≤ 1024 - used` is admitted: `mp_allocate`
returns the non-`NULL` handle `__mem_start + used`, prints nothing, and
leaves `used + m_size` in `__used` (size, buffer and mutex as before). -/
theorem C1_mp_allocate_succeeds (p : memory_pool_t) (b : memory_block_t) (m_size : Nat)
    (hblk : p.mp_block = some b) (hlock : p.mutex.locked = false)
    (hsize : b.__size = MAX_BLOCK_SIZE) (hused : b.__used ≤ b.__size)
    (hbuf : b.__mem_start ≠ NULL) (hfit : b.__mem_start + b.__size ≤ SIZE_MOD)
    (hpos : 0 < m_size) (hle : m_size ≤ MAX_BLOCK_SIZE - b.__used) :
    ∃ r : Ret Nat, mp_allocate (.valid p) m_size = .ok r ∧
      r.val ≠ NULL ∧ r.val = b.__mem_start + b.__used ∧ r.out = [] ∧
      r.mp = .valid { mp_block := some { b with __used := b.__used + m_size },
                      mutex := { locked := false } } := by
  refine ⟨_, mp_allocate_admit p b m_size hblk hlock hsize hused hpos hle, ?_, ?_, rfl, rfl⟩
  · show ptr_add b.__mem_start b.__used ≠ NULL
    unfold ptr_add NULL SIZE_MOD MAX_BLOCK_SIZE at *
    omega
  · show ptr_add b.__mem_start b.__used = b.__mem_start + b.__used
    unfold ptr_add NULL SIZE_MOD MAX_BLOCK_SIZE at *
    omega

/-- C1 at a concrete pool: buffer at 4096, `used = 200`, request of 300 bytes. -/
theorem C1_mp_allocate_succeeds_witness :
    ∃ r : Ret Nat, mp_allocate (mk_pool 4096 200) 300 = .ok r ∧
      r.val ≠ NULL ∧ r.val = 4096 + 200 ∧ r.out = [] ∧ r.mp = mk_pool 4096 500 :=
  C1_mp_allocate_succeeds
    { mp_block := some { __mem_start := 4096, __size := MAX_BLOCK_SIZE, __used := 200 },
      mutex := { locked := false } }
    { __mem_start := 4096, __size := MAX_BLOCK_SIZE, __used := 200 } 300
    rfl rfl rfl (by decide) (by decide) (by decide) (by decide) (by decide)

/-- C2: for every pool pointer (`NULL`, live in any state, or released) and every
`m_size` that is 0 or exceeds `MAX_BLOCK_SIZE`, `mp_allocate` returns `NULL`
and the pool is exactly as before: nothing is read, written or allocated. -/
theorem C2_mp_allocate_invalid_size (mp : PoolRef) (m_size : Nat)
    (h : m_size = 0 ∨ MAX_BLOCK_SIZE < m_size) :
    ∃ r : Ret Nat, mp_allocate mp m_size = .ok r ∧ r.val = NULL ∧ r.mp = mp ∧
      (mp ≠ .null → r.out = [.invaild_memory_allocate_size]) := by
  refine ⟨_, mp_allocate_invalid_size mp m_size h, rfl, rfl, ?_⟩
  intro hne
  simp [hne]

/-- C2 at the argument `-40` of the test, which reaches `mp_allocate` as the
`size_t` value `2 ^ 64 - 40`. -/
theorem C2_mp_allocate_invalid_size_witness :
    to_size_t (-40) = 2 ^ 64 - 40 ∧
    ∃ r : Ret Nat, mp_allocate (mk_pool 4096 500) (to_size_t (-40)) = .ok r ∧ r.val = NULL ∧
      r.mp = mk_pool 4096 500 ∧
      (mk_pool 4096 500 ≠ .null → r.out = [.invaild_memory_allocate_size]) :=
  ⟨by decide, C2_mp_allocate_invalid_size (mk_pool 4096 500) (to_size_t (-40)) (by decide)⟩

/-- C3: on a pool with `used ≤ size = 1024`, a request with `0 < m_size ≤ 1024`
and `1024 - used < m_size` is refused: `mp_allocate` returns `NULL`, reports
that the pool is full, and leaves the pool (in particular `used`) unchanged. -/
theorem C3_mp_allocate_pool_full (p : memory_pool_t) (b : memory_block_t) (m_size : Nat)
    (hblk : p.mp_block = some b)
    (hsize : b.__size = MAX_BLOCK_SIZE) (hused : b.__used ≤ b.__size)
    (hpos : 0 < m_size) (hle : m_size ≤ MAX_BLOCK_SIZE)
    (hfull : MAX_BLOCK_SIZE - b.__used < m_size) :
    ∃ r : Ret Nat, mp_allocate (.valid p) m_size = .ok r ∧ r.val = NULL ∧
      r.mp = .valid p ∧ r.out = [.the_memory_pool_is_full] :=
  ⟨_, mp_allocate_full p b m_size hblk hsize hused hpos hle hfull, rfl, rfl, rfl⟩

/-- C3 at the state of the test: `used = 500`, request of 600 bytes. -/
theorem C3_mp_allocate_pool_full_witness :
    MAX_BLOCK_SIZE - 500 < 600 ∧
    ∃ r : Ret Nat, mp_allocate (mk_pool 4096 500) 600 = .ok r ∧ r.val = NULL ∧
      r.mp = mk_pool 4096 500 ∧ r.out = [.the_memory_pool_is_full] :=
  ⟨by decide, C3_mp_allocate_pool_full
    { mp_block := some { __mem_start := 4096, __size := MAX_BLOCK_SIZE, __used := 500 },
      mutex := { locked := false } }
    { __mem_start := 4096, __size := MAX_BLOCK_SIZE, __used := 500 } 600
    rfl rfl (by decide) (by decide) (by decide) (by decide)⟩

/-- C4: on a pool whose buffer lies in the address space and whose mutex is free,
`free_memory` on a non-`NULL` handle `__mem_start + k` with `0 ≤ k < size` is
accepted and sets `used = k`; nothing is assumed about `used` before the
call, which may be lower, equal or higher than `k`.  Buffer, size and mutex
are as before. -/
theorem C4_free_memory_truncates (p : memory_pool_t) (b : memory_block_t) (k : Nat)
    (hblk : p.mp_block = some b) (hlock : p.mutex.locked = false)
    (has : in_address_space b) (h0 : b.__mem_start + k ≠ NULL) (hk : k < b.__size) :
    ∃ r : Ret Unit, free_memory (.valid p) (b.__mem_start + k) = .ok r ∧
      r.mp = .valid { mp_block := some { b with __used := k }, mutex := { locked := false } } ∧
      r.out = [.free_addr_memory_success (b.__mem_start + k)] := by
  have hfit := has.1
  have hptr : b.__mem_start + k < SIZE_MOD := by omega
  have h := free_memory_accept p b (b.__mem_start + k) hblk hlock has hptr h0
    (Nat.le_add_right _ _) (by omega)
  rw [Nat.add_sub_cancel_left] at h
  exact ⟨_, h, rfl, rfl⟩

/-- C4 at three concrete pools with the same buffer: releasing the handle at offset
200 gives `used = 200` whether `used` was 500, 200 or 100 before. -/
theorem C4_free_memory_truncates_witness :
    (∃ r : Ret Unit, free_memory (mk_pool 4096 500) (4096 + 200) = .ok r ∧
      r.mp = mk_pool 4096 200 ∧ r.out = [.free_addr_memory_success (4096 + 200)]) ∧
    (∃ r : Ret Unit, free_memory (mk_pool 4096 200) (4096 + 200) = .ok r ∧
      r.mp = mk_pool 4096 200 ∧ r.out = [.free_addr_memory_success (4096 + 200)]) ∧
    (∃ r : Ret Unit, free_memory (mk_pool 4096 100) (4096 + 200) = .ok r ∧
      r.mp = mk_pool 4096 200 ∧ r.out = [.free_addr_memory_success (4096 + 200)]) :=
  ⟨C4_free_memory_truncates
      { mp_block := some { __mem_start := 4096, __size := MAX_BLOCK_SIZE, __used := 500 },
        mutex := { locked := false } }
      { __mem_start := 4096, __size := MAX_BLOCK_SIZE, __used := 500 } 200
      rfl rfl (by decide) (by decide) (by decide),
   C4_free_memory_truncates
      { mp_block := some { __mem_start := 4096, __size := MAX_BLOCK_SIZE, __used := 200 },
        mutex := { locked := false } }
      { __mem_start := 4096, __size := MAX_BLOCK_SIZE, __used := 200 } 200
      rfl rfl (by decide) (by decide) (by decide),
   C4_free_memory_truncates
      { mp_block := some { __mem_start := 4096, __size := MAX_BLOCK_SIZE, __used := 100 },
        mutex := { locked := false } }
      { __mem_start := 4096, __size := MAX_BLOCK_SIZE, __used := 100 } 200
      rfl rfl (by decide) (by decide) (by decide)⟩

/-- C5: on a live pool whose mutex is free, `free_memory` rejects every handle
that is `NULL` (whatever the block pointer is) and every address outside
`[__mem_start, __mem_start + size)` of a buffer that lies in the address
space: the call returns, its last message is the rejection, and the pool
(`used`, buffer, size, mutex) is exactly as before. -/
theorem C5_free_memory_rejects (p : memory_pool_t) (ptr : Nat)
    (hlock : p.mutex.locked = false)
    (hout : ptr = NULL ∨
      ∃ b, p.mp_block = some b ∧ b.__mem_start + b.__size ≤ SIZE_MOD ∧ ptr < SIZE_MOD ∧
        (ptr < b.__mem_start ∨ b.__mem_start + b.__size ≤ ptr)) :
    ∃ r : Ret Unit, free_memory (.valid p) ptr = .ok r ∧ r.mp = .valid p ∧
      r.out.getLast? = some .your_ptr_is_not_in_the_memory_pool ∧
      ∀ a, Msg.free_addr_memory_success a ∉ r.out := by
  rcases hout with h0 | ⟨b, hblk, hfit, hptr, hrange⟩
  · have hp : ({ mp_block := p.mp_block, mutex := { locked := false } } : memory_pool_t) = p := by
      cases p with
      | mk blk m => cases m with
        | mk l => simp only [] at hlock; subst hlock; rfl
    refine ⟨{ val := (), mp := .valid p,
              out := [.your_ptr_is_NULL, .your_ptr_is_not_in_the_memory_pool] }, ?_, rfl, rfl, ?_⟩
    · unfold free_memory
      simp only [pthread_mutex_lock, hlock, pthread_mutex_unlock, Bool.false_eq_true, if_false,
        is_mp_ptr, h0, if_true, hp]
      rfl
    · intro a; simp
  · have h := free_memory_reject p b ptr hblk hlock hfit hptr (Or.inr hrange)
    refine ⟨_, h, rfl, ?_, ?_⟩
    · by_cases h0 : ptr = NULL <;> simp [h0]
    · intro a
      by_cases h0 : ptr = NULL <;> simp [h0]

/-- C5 at the two handles of the test, on a pool whose buffer `[4096, 5120)` does
not contain `0x123456`: the address `0x123456` and the `NULL` `large_obj`. -/
theorem C5_free_memory_rejects_witness :
    (∃ r : Ret Unit, free_memory (mk_pool 4096 500) 0x123456 = .ok r ∧
      r.mp = mk_pool 4096 500 ∧
      r.out.getLast? = some .your_ptr_is_not_in_the_memory_pool ∧
      ∀ a, Msg.free_addr_memory_success a ∉ r.out) ∧
    (∃ r : Ret Unit, free_memory (mk_pool 4096 500) NULL = .ok r ∧
      r.mp = mk_pool 4096 500 ∧
      r.out.getLast? = some .your_ptr_is_not_in_the_memory_pool ∧
      ∀ a, Msg.free_addr_memory_success a ∉ r.out) :=
  ⟨C5_free_memory_rejects
      { mp_block := some { __mem_start := 4096, __size := MAX_BLOCK_SIZE, __used := 500 },
        mutex := { locked := false } } 0x123456 rfl
      (Or.inr ⟨{ __mem_start := 4096, __size := MAX_BLOCK_SIZE, __used := 500 }, rfl,
        by decide, by decide, Or.inr (by decide)⟩),
   C5_free_memory_rejects
      { mp_block := some { __mem_start := 4096, __size := MAX_BLOCK_SIZE, __used := 500 },
        mutex := { locked := false } } NULL rfl (Or.inl rfl)⟩

/-- C6: on a live pool with a block whose buffer is a real allocation (non-`NULL`,
inside the address space), `is_mp_ptr` returns, and returns `true` exactly
when the byte offset `ptr - __mem_start` satisfies `0 ≤ offset < size`.  It
returns `false` for the `NULL` handle; for a handle below the base the
difference cast to `size_t` wraps to a value of at least `2 ^ 64 - __mem_start`,
not below `size`, and the result is `false`. -/
theorem C6_is_mp_ptr_iff_offset_in_range (p : memory_pool_t) (b : memory_block_t) (ptr : Nat)
    (hblk : p.mp_block = some b) (hbuf : b.__mem_start ≠ NULL)
    (has : in_address_space b) (hptr : ptr < SIZE_MOD) :
    ∃ (r : Bool) (out : List Msg), is_mp_ptr (.valid p) ptr = .ok (r, out) ∧
      (r = true ↔ 0 ≤ (ptr : Int) - (b.__mem_start : Int) ∧
                  (ptr : Int) - (b.__mem_start : Int) < (b.__size : Int)) ∧
      (ptr = NULL → r = false) ∧
      (ptr < b.__mem_start → r = false ∧
        SIZE_MOD - b.__mem_start ≤ to_size_t (ptr_diff ptr b.__mem_start) ∧
        b.__size ≤ to_size_t (ptr_diff ptr b.__mem_start)) := by
  refine ⟨_, _, is_mp_ptr_valid p b ptr hblk has hptr, ?_, ?_, ?_⟩
  · rw [decide_eq_true_iff]
    unfold NULL at *
    constructor
    · rintro ⟨_, h2, h3⟩; omega
    · rintro ⟨h2, h3⟩; omega
  · intro h0
    simp [h0]
  · intro hlt
    refine ⟨?_, ?_, ?_⟩
    · rw [decide_eq_false_iff_not]
      omega
    · rw [to_size_t_ptr_diff]
      unfold size_t_sub SIZE_MOD at *
      omega
    · rw [to_size_t_ptr_diff]
      have hfit := has.1
      unfold size_t_sub SIZE_MOD at *
      omega

/-- C6 at a concrete pool with buffer `[4096, 5120)`: the last byte of the buffer
is owned. -/
theorem C6_is_mp_ptr_iff_offset_in_range_witness :
    ∃ (r : Bool) (out : List Msg), is_mp_ptr (mk_pool 4096 500) 5119 = .ok (r, out) ∧
      (r = true ↔ 0 ≤ ((5119 : Nat) : Int) - ((4096 : Nat) : Int) ∧
                  ((5119 : Nat) : Int) - ((4096 : Nat) : Int) < ((MAX_BLOCK_SIZE : Nat) : Int)) ∧
      (5119 = NULL → r = false) ∧
      (5119 < 4096 → r = false ∧
        SIZE_MOD - 4096 ≤ to_size_t (ptr_diff 5119 4096) ∧
        MAX_BLOCK_SIZE ≤ to_size_t (ptr_diff 5119 4096)) :=
  C6_is_mp_ptr_iff_offset_in_range
    { mp_block := some { __mem_start := 4096, __size := MAX_BLOCK_SIZE, __used := 500 },
      mutex := { locked := false } }
    { __mem_start := 4096, __size := MAX_BLOCK_SIZE, __used := 500 } 5119
    rfl (by decide) (by decide) (by decide)

/-- C7, as stated, fails: when the `malloc` of the replacement block struct
fails (lines 139-144), `free_all_memory` returns with a `NULL` block pointer,
so there is no `used` that could be 0, the mutex is still held, and the
following `mp_allocate(mp, 1024)` dereferences the `NULL` block. -/
theorem C7_free_all_memory_counterexample :
    free_all_memory (mk_pool 4096 500) false 0 =
      .ok { val := (), mp := .valid { mp_block := none, mutex := { locked := true } },
            out := [.memory_allocate_failed] } ∧
    used_of (.valid { mp_block := none, mutex := { locked := true } }) = none ∧
    mp_allocate (.valid { mp_block := none, mutex := { locked := true } }) MAX_BLOCK_SIZE =
      .error .null_deref := by
  exact ⟨rfl, rfl, rfl⟩

/-- C7, amended: when both `malloc` calls of `free_all_memory` succeed (the
replacement buffer `buf` is non-`NULL` and inside the address space), then on
every live pool with a block and a free mutex, whatever its `used`, size and
buffer, `free_all_memory` leaves `used = 0`, `size = 1024` and the new
buffer, and an `mp_allocate(mp, 1024)` issued next succeeds and returns the
base of the new buffer. -/
theorem C7_free_all_memory_resets (p : memory_pool_t) (b : memory_block_t) (buf : Nat)
    (hblk : p.mp_block = some b) (hlock : p.mutex.locked = false)
    (hbuf : buf ≠ NULL) (hfit : buf + MAX_BLOCK_SIZE ≤ SIZE_MOD) :
    ∃ r : Ret Unit, free_all_memory (.valid p) true buf = .ok r ∧
      r.mp = .valid { mp_block := some { __mem_start := buf, __size := MAX_BLOCK_SIZE,
                                          __used := 0 },
                      mutex := { locked := false } } ∧
      ∃ r2 : Ret Nat, mp_allocate r.mp MAX_BLOCK_SIZE = .ok r2 ∧
        r2.val = buf ∧ r2.val ≠ NULL ∧ r2.out = [] ∧ used_of r2.mp = some MAX_BLOCK_SIZE := by
  refine ⟨_, free_all_memory_reset p b buf hblk hlock, rfl, ?_⟩
  have h := mp_allocate_mk_pool buf 0 MAX_BLOCK_SIZE hfit (by decide) (by omega)
  exact ⟨_, h, Nat.add_zero _, by rw [Nat.add_zero]; exact hbuf, rfl, by
    show some (0 + MAX_BLOCK_SIZE) = some MAX_BLOCK_SIZE
    rw [Nat.zero_add]⟩

/-- C7 amended, at a concrete pool: `used = 900` in the buffer at 4096, reset to
a new buffer at 8192. -/
theorem C7_free_all_memory_resets_witness :
    ∃ r : Ret Unit, free_all_memory (mk_pool 4096 900) true 8192 = .ok r ∧
      r.mp = mk_pool 8192 0 ∧
      ∃ r2 : Ret Nat, mp_allocate r.mp MAX_BLOCK_SIZE = .ok r2 ∧
        r2.val = 8192 ∧ r2.val ≠ NULL ∧ r2.out = [] ∧ used_of r2.mp = some MAX_BLOCK_SIZE :=
  C7_free_all_memory_resets
    { mp_block := some { __mem_start := 4096, __size := MAX_BLOCK_SIZE, __used := 900 },
      mutex := { locked := false } }
    { __mem_start := 4096, __size := MAX_BLOCK_SIZE, __used := 900 } 8192
    rfl rfl (by decide) (by decide)

/-- C8: `used ≤ size` holds on the pool returned by `init_memory_pool`, whatever
the outcome of its allocations, and on the pool left by every sequence of
`mp_allocate`, `free_memory` and `free_all_memory` calls with arbitrary
arguments that returns, accepted and rejected calls alike.  When no `malloc`
of a block struct fails during the sequence, the sequence does return, and
after a successful initialisation it leaves a live pool with a block,
capacity 1024 and `used ≤ 1024`. -/
theorem C8_used_le_size_invariant (pool_ok block_ok : Bool) (buf : Nat) (mutex_ok : Bool)
    (ops : List Op) :
    used_le_size (init_memory_pool pool_ok block_ok buf mutex_ok).mp ∧
    (∀ mp1, run (init_memory_pool pool_ok block_ok buf mutex_ok).mp ops = .ok mp1 →
      used_le_size mp1) ∧
    ((∀ op ∈ ops, op.block_malloc_ok = true) →
      ∃ mp1, run (init_memory_pool pool_ok block_ok buf mutex_ok).mp ops = .ok mp1 ∧
        used_le_size mp1 ∧
        ((pool_ok && block_ok && mutex_ok) = true →
          ∃ base used, mp1 = mk_pool base used ∧ used ≤ MAX_BLOCK_SIZE)) := by
  have h0 := init_memory_pool_block_inv pool_ok block_ok buf mutex_ok
  refine ⟨block_inv_used_le_size _ h0, ?_, ?_⟩
  · intro mp1 h
    exact block_inv_used_le_size _ (run_block_inv ops _ mp1 h0 h)
  · intro hok
    rcases init_memory_pool_null_or_mk_pool pool_ok block_ok buf mutex_ok with
      ⟨hnull, hfail⟩ | ⟨hmk, _⟩
    · refine ⟨.null, by rw [hnull]; exact run_null ops, trivial, ?_⟩
      intro hall
      rw [hfail] at hall
      cases hall
    · obtain ⟨base1, used1, hr, hle⟩ := run_mk_pool_returns ops buf 0 (Nat.zero_le _) hok
      rw [hmk]
      refine ⟨_, hr, ?_, fun _ => ⟨base1, used1, rfl, hle⟩⟩
      exact block_inv_used_le_size _ (run_block_inv ops _ _ (by rw [← hmk]; exact h0) hr)

/-- C9: Tests 1 to 6 of test.c on a pool whose buffer `buf` and replacement
buffer `buf2` are real allocations.  Call by call: `mp_allocate(200)` returns
offset 0, with used 200; `mp_allocate(300)` offset 200, used 500;
`mp_allocate(1500)`, `(600)`, `(0)` and `(-40)` return `NULL`, used 500;
`free_memory` at offset 200 gives used 200, at offset 0 gives used 0; the
`NULL` `large_obj` is rejected; `0x123456` moves the watermark only if the
buffer contains it; `free_all_memory` gives used 0; `mp_allocate(500)` returns
offset 0 of the new buffer; `mp_allocate(400)` offset 500, used 900;
`mp_allocate(200)` returns `NULL`, used still 900. -/
theorem C9_test_main_trace (buf buf2 : Nat)
    (hbuf : buf ≠ NULL) (hfit : buf + MAX_BLOCK_SIZE ≤ SIZE_MOD)
    (hbuf2 : buf2 ≠ NULL) (hfit2 : buf2 + MAX_BLOCK_SIZE ≤ SIZE_MOD) :
    test_main buf buf2 = .ok
      [(buf + 0, some 200), (buf + 200, some 500), (NULL, some 500), (NULL, some 500),
       (NULL, some 500), (NULL, some 500), (0, some 200), (0, some 0), (0, some 0),
       (0, some (if buf ≤ 0x123456 ∧ 0x123456 < buf + MAX_BLOCK_SIZE
                 then 0x123456 - buf else 0)),
       (0, some 0), (buf2 + 0, some 500), (buf2 + 500, some 900), (NULL, some 900)] ∧
    buf + 0 ≠ NULL ∧ buf + 200 ≠ NULL ∧ buf2 + 0 ≠ NULL ∧ buf2 + 500 ≠ NULL := by
  have hM : MAX_BLOCK_SIZE = 1024 := rfl
  have hS : SIZE_MOD = 2 ^ 64 := rfl
  have hN : NULL = 0 := rfl
  have e0 : (init_memory_pool true true buf true).mp = mk_pool buf 0 := rfl
  have e1 : mp_allocate (mk_pool buf 0) 200 =
      .ok { val := buf + 0, mp := mk_pool buf 200, out := [] } :=
    mp_allocate_mk_pool buf 0 200 hfit (by decide) (by decide)
  have e2 : mp_allocate (mk_pool buf 200) 300 =
      .ok { val := buf + 200, mp := mk_pool buf 500, out := [] } :=
    mp_allocate_mk_pool buf 200 300 hfit (by decide) (by decide)
  have e3 := mp_allocate_invalid_size (mk_pool buf 500) 1500 (Or.inr (by decide))
  have e4 := mp_allocate_mk_pool_full buf 500 600 (by decide) (by decide) (by decide)
    (by decide)
  have e5 := mp_allocate_invalid_size (mk_pool buf 500) 0 (Or.inl rfl)
  have e6 := mp_allocate_invalid_size (mk_pool buf 500) (to_size_t (-40)) (Or.inr (by decide))
  obtain ⟨o7, e7⟩ := free_memory_mk_pool buf 500 (buf + 200) hfit (by omega)
  obtain ⟨o8, e8⟩ := free_memory_mk_pool buf 200 (buf + 0) hfit (by omega)
  obtain ⟨o9, e9⟩ := free_memory_mk_pool buf 0 NULL hfit (by decide)
  obtain ⟨o10, e10⟩ := free_memory_mk_pool buf 0 0x123456 hfit (by decide)
  have h7 : buf + 200 ≠ NULL ∧ buf ≤ buf + 200 ∧ buf + 200 < buf + MAX_BLOCK_SIZE :=
    ⟨by omega, by omega, by omega⟩
  have h8 : buf + 0 ≠ NULL ∧ buf ≤ buf + 0 ∧ buf + 0 < buf + MAX_BLOCK_SIZE :=
    ⟨by omega, by omega, by omega⟩
  have h9 : ¬ (NULL ≠ NULL ∧ buf ≤ NULL ∧ NULL < buf + MAX_BLOCK_SIZE) :=
    fun h => h.1 rfl
  have h10 : ((1193046 : Nat) ≠ NULL ∧ buf ≤ 1193046 ∧ 1193046 < buf + MAX_BLOCK_SIZE) ↔
      (buf ≤ 1193046 ∧ 1193046 < buf + MAX_BLOCK_SIZE) :=
    ⟨fun h => h.2, fun h => ⟨by decide, h⟩⟩
  rw [if_pos h7, Nat.add_sub_cancel_left] at e7
  rw [if_pos h8, Nat.add_sub_cancel_left] at e8
  rw [if_neg h9] at e9
  simp only [h10] at e10
  have e11 : ∀ k, free_all_memory (mk_pool buf k) true buf2 =
      .ok { val := (), mp := mk_pool buf2 0, out := [.free_all_allocated_memory_success] } :=
    fun k => free_all_memory_reset _ _ buf2 rfl rfl
  have e12 : mp_allocate (mk_pool buf2 0) 500 =
      .ok { val := buf2 + 0, mp := mk_pool buf2 500, out := [] } :=
    mp_allocate_mk_pool buf2 0 500 hfit2 (by decide) (by decide)
  have e13 : mp_allocate (mk_pool buf2 500) 400 =
      .ok { val := buf2 + 500, mp := mk_pool buf2 900, out := [] } :=
    mp_allocate_mk_pool buf2 500 400 hfit2 (by decide) (by decide)
  have e14 := mp_allocate_mk_pool_full buf2 900 200 (by decide) (by decide) (by decide)
    (by decide)
  have bind_ok : ∀ {α β : Type} (a : α) (f : α → Except Fault β),
      (Except.ok a >>= f) = f a := fun _ _ => rfl
  refine ⟨?_, by omega, by omega, by omega, by omega⟩
  simp only [test_main, e0, e1, bind_ok, e2, e3, e4, e5, e6, e7, e8, e9, e10, e11, e12, e13,
    e14]
  rfl

/-- C9 at the buffers 4096 and 8192. -/
theorem C9_test_main_trace_witness :
    test_main 4096 8192 = .ok
      [(4096 + 0, some 200), (4096 + 200, some 500), (NULL, some 500), (NULL, some 500),
       (NULL, some 500), (NULL, some 500), (0, some 200), (0, some 0), (0, some 0),
       (0, some (if 4096 ≤ 0x123456 ∧ 0x123456 < 4096 + MAX_BLOCK_SIZE
                 then 0x123456 - 4096 else 0)),
       (0, some 0), (8192 + 0, some 500), (8192 + 500, some 900), (NULL, some 900)] ∧
    4096 + 0 ≠ NULL ∧ 4096 + 200 ≠ NULL ∧ 8192 + 0 ≠ NULL ∧ 8192 + 500 ≠ NULL :=
  C9_test_main_trace 4096 8192 (by decide) (by decide) (by decide) (by decide)

/-- C10, evaluated: when the `malloc` of the pool struct, of the block struct and
`pthread_mutex_init` succeed but `malloc(MAX_BLOCK_SIZE)` returns `NULL`,
`init_memory_pool` prints nothing and returns a pool whose `__mem_start` is
`NULL` (line 43 is not followed by a test).  On the three failures that the
code does test it returns `NULL` with every object it had obtained released;
it returns `NULL` in no other case. -/
theorem C10_init_memory_pool_null_buffer :
    init_memory_pool true true NULL true =
      { mp := .valid { mp_block := some { __mem_start := NULL, __size := MAX_BLOCK_SIZE,
                                           __used := 0 },
                       mutex := { locked := false } },
        live := [.block_struct, .pool_struct], out := [] } ∧
    (∀ (pool_ok block_ok : Bool) (buf : Nat) (mutex_ok : Bool),
      ((init_memory_pool pool_ok block_ok buf mutex_ok).mp = .null ↔
        (pool_ok = false ∨ block_ok = false ∨ mutex_ok = false)) ∧
      ((init_memory_pool pool_ok block_ok buf mutex_ok).mp = .null →
        (init_memory_pool pool_ok block_ok buf mutex_ok).live = [])) := by
  refine ⟨rfl, ?_⟩
  intro pool_ok block_ok buf mutex_ok
  cases pool_ok <;> cases block_ok <;> cases mutex_ok <;>
    by_cases hb : buf = NULL <;>
    simp [init_memory_pool, heap_malloc, heap_free, hb]

/-- C11: the capacity is `MAX_BLOCK_SIZE = 1024` on the pool returned by a
successful `init_memory_pool`, and on the pool left by every sequence of
`mp_allocate`, `free_memory` and `free_all_memory` calls that returns, whenever
that pool has a block; when no `malloc` of a block struct fails the sequence
returns and the capacity is 1024 at its end.  Call by call, from any pool:
`mp_allocate` and `free_memory` leave `__size` as it was, and
`free_all_memory` leaves a block of capacity 1024 or no block. -/
theorem C11_size_is_MAX_BLOCK_SIZE (pool_ok block_ok : Bool) (buf : Nat) (mutex_ok : Bool)
    (ops : List Op) :
    ((pool_ok && block_ok && mutex_ok) = true →
      size_of (init_memory_pool pool_ok block_ok buf mutex_ok).mp = some MAX_BLOCK_SIZE) ∧
    (∀ mp1, run (init_memory_pool pool_ok block_ok buf mutex_ok).mp ops = .ok mp1 →
      size_of mp1 = some MAX_BLOCK_SIZE ∨ size_of mp1 = none) ∧
    ((∀ op ∈ ops, op.block_malloc_ok = true) →
      ∃ mp1, run (init_memory_pool pool_ok block_ok buf mutex_ok).mp ops = .ok mp1 ∧
        ((pool_ok && block_ok && mutex_ok) = true → size_of mp1 = some MAX_BLOCK_SIZE)) ∧
    (∀ (mp : PoolRef) (m_size : Nat) (r : Ret Nat),
      mp_allocate mp m_size = .ok r → size_of r.mp = size_of mp) ∧
    (∀ (mp : PoolRef) (ptr : Nat) (r : Ret Unit),
      free_memory mp ptr = .ok r → size_of r.mp = size_of mp) ∧
    (∀ (mp : PoolRef) (ok : Bool) (buf1 : Nat) (r : Ret Unit),
      free_all_memory mp ok buf1 = .ok r →
        size_of r.mp = some MAX_BLOCK_SIZE ∨ size_of r.mp = none) := by
  have h0 := init_memory_pool_block_inv pool_ok block_ok buf mutex_ok
  refine ⟨?_, ?_, ?_, mp_allocate_size_of, free_memory_size_of, free_all_memory_size_of⟩
  · intro hall
    rcases init_memory_pool_null_or_mk_pool pool_ok block_ok buf mutex_ok with
      ⟨_, hfail⟩ | ⟨hmk, _⟩
    · rw [hfail] at hall; cases hall
    · rw [hmk]; rfl
  · intro mp1 h
    exact block_inv_size_of _ (run_block_inv ops _ mp1 h0 h)
  · intro hok
    rcases init_memory_pool_null_or_mk_pool pool_ok block_ok buf mutex_ok with
      ⟨hnull, hfail⟩ | ⟨hmk, _⟩
    · refine ⟨.null, by rw [hnull]; exact run_null ops, ?_⟩
      intro hall
      rw [hfail] at hall
      cases hall
    · obtain ⟨base1, used1, hr, _⟩ := run_mk_pool_returns ops buf 0 (Nat.zero_le _) hok
      rw [hmk]
      exact ⟨_, hr, fun _ => rfl⟩

/-- C12, evaluated: `free_all_memory` returns with the mutex held when the
`malloc` of the replacement block fails (lines 141-144) and when the block
pointer is `NULL` (lines 132-134); `destroy_memory_pool` does so when the
block pointer is `NULL` (lines 89-91); the next call that locks the mutex does
not return.  Every other exit path releases the mutex: `mp_allocate` and
`free_memory` on each of their returns, rejections included, and
`free_all_memory` and `destroy_memory_pool` on their full paths. -/
theorem C12_lock_left_held_on_early_return :
    free_all_memory (mk_pool 4096 500) false 0 =
      .ok { val := (), mp := .valid { mp_block := none, mutex := { locked := true } },
            out := [.memory_allocate_failed] } ∧
    free_all_memory (.valid { mp_block := none, mutex := { locked := false } }) true 8192 =
      .ok { val := (), mp := .valid { mp_block := none, mutex := { locked := true } },
            out := [] } ∧
    destroy_memory_pool (.valid { mp_block := none, mutex := { locked := false } }) [] =
      .ok { mp := .valid { mp_block := none, mutex := { locked := true } },
            live := [], out := [] } ∧
    lock_held (.valid { mp_block := none, mutex := { locked := true } }) = true ∧
    free_memory (.valid { mp_block := none, mutex := { locked := true } }) 4096 =
      .error .deadlock ∧
    free_all_memory (.valid { mp_block := none, mutex := { locked := true } }) true 8192 =
      .error .deadlock ∧
    (∀ (p : memory_pool_t) (m_size : Nat) (r : Ret Nat), p.mutex.locked = false →
      mp_allocate (.valid p) m_size = .ok r → lock_held r.mp = false) ∧
    (∀ (p : memory_pool_t) (ptr : Nat) (r : Ret Unit),
      free_memory (.valid p) ptr = .ok r → lock_held r.mp = false) ∧
    (∀ (p : memory_pool_t) (b : memory_block_t) (buf : Nat), p.mp_block = some b →
      p.mutex.locked = false →
      ∃ r : Ret Unit, free_all_memory (.valid p) true buf = .ok r ∧ lock_held r.mp = false) ∧
    (∀ (p : memory_pool_t) (b : memory_block_t) (live : List Res), p.mp_block = some b →
      p.mutex.locked = false →
      ∃ r : DestroyRet, destroy_memory_pool (.valid p) live = .ok r ∧
        lock_held r.mp = false) := by
  refine ⟨rfl, rfl, rfl, rfl, rfl, rfl, mp_allocate_lock_held, free_memory_lock_held, ?_, ?_⟩
  · intro p b buf hblk hlock
    exact ⟨_, free_all_memory_reset p b buf hblk hlock, rfl⟩
  · intro p b live hblk hlock
    exact ⟨_, destroy_memory_pool_full p b live hblk hlock, rfl⟩

/-- C13, evaluated: `mp_allocate` is its unlocked part (lines 57-70) followed by
its locked part (lines 72-78), and the admission check belongs to the
unlocked part: it returns its verdict while the mutex is held by somebody
else.  Two threads that call `mp_allocate(mp, 600)` on an empty pool at 4096
can therefore both pass the check against `used = 0`; their critical sections
then run one after the other and hand out the offsets 0 and 600, leaving
`used = 1200 > 1024`, the second range ending 176 bytes past the buffer.  Run
one after the other as whole calls, the second request is refused. -/
theorem C13_admission_check_outside_lock :
    (∀ (mp : PoolRef) (m_size : Nat),
      mp_allocate mp m_size =
        match mp_allocate_check mp m_size with
        | .error f => .error f
        | .ok (some r) => .ok r
        | .ok none => mp_allocate_critical mp m_size) ∧
    mp_allocate_check
      (.valid { mp_block := some { __mem_start := 4096, __size := MAX_BLOCK_SIZE, __used := 0 },
                mutex := { locked := true } }) 600 = .ok none ∧
    mp_allocate_check (mk_pool 4096 0) 600 = .ok none ∧
    mp_allocate_critical (mk_pool 4096 0) 600 =
      .ok { val := 4096, mp := mk_pool 4096 600, out := [] } ∧
    mp_allocate_critical (mk_pool 4096 600) 600 =
      .ok { val := 4096 + 600, mp := mk_pool 4096 1200, out := [] } ∧
    used_of (mk_pool 4096 1200) = some 1200 ∧
    ¬ used_le_size (mk_pool 4096 1200) ∧
    4096 + 600 + 600 = 4096 + MAX_BLOCK_SIZE + 176 ∧
    mp_allocate (mk_pool 4096 0) 600 =
      .ok { val := 4096, mp := mk_pool 4096 600, out := [] } ∧
    mp_allocate (mk_pool 4096 600) 600 =
      .ok { val := NULL, mp := mk_pool 4096 600, out := [.the_memory_pool_is_full] } := by
  refine ⟨mp_allocate_eq_check_then_critical, rfl, rfl, rfl, rfl, rfl, ?_, rfl, rfl, rfl⟩
  show ¬ ((1200 : Nat) ≤ MAX_BLOCK_SIZE)
  decide

/-- C14, as stated, fails: after `destroy_memory_pool` on a live pool the caller's
pointer dangles, and `free_memory`, `free_all_memory`, a second
`destroy_memory_pool`, `mp_allocate` with a valid size and `is_mp_ptr` with a
non-`NULL` handle are not rejected: each reads the released pool struct. -/
theorem C14_use_after_destroy_counterexample :
    destroy_memory_pool (mk_pool 4096 900) [.buffer 4096, .block_struct, .pool_struct] =
      .ok { mp := .dangling, live := [], out := [] } ∧
    mp_allocate .dangling 100 = .error .use_after_free ∧
    free_memory .dangling 4096 = .error .use_after_free ∧
    free_all_memory .dangling true 8192 = .error .use_after_free ∧
    is_mp_ptr .dangling 4096 = .error .use_after_free ∧
    destroy_memory_pool .dangling [] = .error .use_after_free :=
  ⟨rfl, rfl, rfl, rfl, rfl, rfl⟩

/-- C14, amended: `destroy_memory_pool` on a live pool with a block and a free
mutex returns and leaves the caller's pointer dangling.  A further call on
that pointer is answered with a failure result only where the request is
refused before the pool is read: `mp_allocate` with `m_size = 0` or
`m_size > 1024` returns `NULL`, `is_mp_ptr` with a `NULL` handle returns
`false`.  Every other further call (`mp_allocate` with `0 < m_size ≤ 1024`,
`is_mp_ptr` with a non-`NULL` handle, `free_memory`, `free_all_memory`, a
second `destroy_memory_pool`) reads the released pool.  The only pool pointer
that the five operations reject is `NULL`. -/
theorem C14_after_destroy (p : memory_pool_t) (b : memory_block_t) (live : List Res)
    (hblk : p.mp_block = some b) (hlock : p.mutex.locked = false) :
    ∃ r : DestroyRet, destroy_memory_pool (.valid p) live = .ok r ∧ r.mp = .dangling ∧
      (∀ m_size, m_size = 0 ∨ MAX_BLOCK_SIZE < m_size →
        mp_allocate r.mp m_size =
          .ok { val := NULL, mp := r.mp, out := [.invaild_memory_allocate_size] }) ∧
      is_mp_ptr r.mp NULL = .ok (false, [.your_ptr_is_NULL]) ∧
      (∀ m_size, 0 < m_size → m_size ≤ MAX_BLOCK_SIZE →
        mp_allocate r.mp m_size = .error .use_after_free) ∧
      (∀ ptr, ptr ≠ NULL → is_mp_ptr r.mp ptr = .error .use_after_free) ∧
      (∀ ptr, free_memory r.mp ptr = .error .use_after_free) ∧
      (∀ ok buf, free_all_memory r.mp ok buf = .error .use_after_free) ∧
      (∀ live1, destroy_memory_pool r.mp live1 = .error .use_after_free) ∧
      (∀ m_size, mp_allocate .null m_size =
        .ok { val := NULL, mp := .null, out := [.memory_pool_is_NULL] }) ∧
      (∀ ptr, is_mp_ptr .null ptr = .ok (false, [.the_memory_pool_is_NULL])) ∧
      (∀ ptr, free_memory .null ptr =
        .ok { val := (), mp := .null, out := [.the_memory_pool_is_NULL] }) ∧
      (∀ ok buf, free_all_memory .null ok buf =
        .ok { val := (), mp := .null, out := [.the_memory_pool_is_NULL] }) ∧
      (∀ live1, destroy_memory_pool .null live1 =
        .ok { mp := .null, live := live1, out := [.the_memory_pool_is_NULL] }) := by
  refine ⟨_, destroy_memory_pool_full p b live hblk hlock, rfl, ?_, rfl, ?_, ?_, ?_, ?_, ?_,
    ?_, ?_, ?_, ?_, ?_⟩
  · intro m_size h
    have h1 := mp_allocate_invalid_size .dangling m_size h
    simpa using h1
  · intro m_size hpos hle
    have hc : ¬ (m_size ≤ 0 ∨ m_size > MAX_BLOCK_SIZE) := by omega
    simp only [mp_allocate, if_neg hc]
  · intro ptr h0
    simp only [is_mp_ptr, if_neg h0]
  · intro ptr; rfl
  · intro ok buf; rfl
  · intro live1; rfl
  · intro m_size; rfl
  · intro ptr; rfl
  · intro ptr; rfl
  · intro ok buf; rfl
  · intro live1; rfl

/-- C14 amended, at the pool of the test at its end (`used = 900`), with the
three heap objects of a successful initialisation. -/
theorem C14_after_destroy_witness :
    ∃ r : DestroyRet,
      destroy_memory_pool (mk_pool 8192 900) [.buffer 8192, .block_struct, .pool_struct] =
        .ok r ∧ r.mp = .dangling ∧
      (∀ m_size, m_size = 0 ∨ MAX_BLOCK_SIZE < m_size →
        mp_allocate r.mp m_size =
          .ok { val := NULL, mp := r.mp, out := [.invaild_memory_allocate_size] }) ∧
      is_mp_ptr r.mp NULL = .ok (false, [.your_ptr_is_NULL]) ∧
      (∀ m_size, 0 < m_size → m_size ≤ MAX_BLOCK_SIZE →
        mp_allocate r.mp m_size = .error .use_after_free) ∧
      (∀ ptr, ptr ≠ NULL → is_mp_ptr r.mp ptr = .error .use_after_free) ∧
      (∀ ptr, free_memory r.mp ptr = .error .use_after_free) ∧
      (∀ ok buf, free_all_memory r.mp ok buf = .error .use_after_free) ∧
      (∀ live1, destroy_memory_pool r.mp live1 = .error .use_after_free) ∧
      (∀ m_size, mp_allocate .null m_size =
        .ok { val := NULL, mp := .null, out := [.memory_pool_is_NULL] }) ∧
      (∀ ptr, is_mp_ptr .null ptr = .ok (false, [.the_memory_pool_is_NULL])) ∧
      (∀ ptr, free_memory .null ptr =
        .ok { val := (), mp := .null, out := [.the_memory_pool_is_NULL] }) ∧
      (∀ ok buf, free_all_memory .null ok buf =
        .ok { val := (), mp := .null, out := [.the_memory_pool_is_NULL] }) ∧
      (∀ live1, destroy_memory_pool .null live1 =
        .ok { mp := .null, live := live1, out := [.the_memory_pool_is_NULL] }) :=
  C14_after_destroy
    { mp_block := some { __mem_start := 8192, __size := MAX_BLOCK_SIZE, __used := 900 },
      mutex := { locked := false } }
    { __mem_start := 8192, __size := MAX_BLOCK_SIZE, __used := 900 }
    [.buffer 8192, .block_struct, .pool_struct] rfl rfl

/-- C15: on a pool with a real buffer at `base` and `used ≤ 1024`, every sequence
of `mp_allocate` calls with nothing in between returns, one value per call.
Among the calls that succeed, taken in call order, an earlier one has the
strictly lower handle and ends where or before the later one begins, so the
ranges `[handle, handle + m_size)` are pairwise disjoint; each range is
non-empty and lies inside `[base, base + 1024)`, that is, its offsets lie in
`[0, 1024)`. -/
theorem C15_sequential_allocations_ordered_disjoint (base used : Nat) (sizes : List Nat)
    (hbuf : base ≠ NULL) (hfit : base + MAX_BLOCK_SIZE ≤ SIZE_MOD)
    (hused : used ≤ MAX_BLOCK_SIZE) :
    ∃ (vals : List Nat) (mp1 : PoolRef),
      alloc_seq (mk_pool base used) sizes = .ok (vals, mp1) ∧
      vals.length = sizes.length ∧
      (successes vals sizes).Pairwise (fun x y => x.1 < y.1 ∧ x.1 + x.2 ≤ y.1) ∧
      ∀ x ∈ successes vals sizes,
        0 < x.2 ∧ base ≤ x.1 ∧ x.1 + x.2 ≤ base + MAX_BLOCK_SIZE := by
  obtain ⟨vals, used1, hseq, _, hmax, hin, hpw⟩ :=
    alloc_seq_mk_pool sizes base used hbuf hfit hused
  refine ⟨vals, _, hseq, alloc_seq_length sizes _ _ vals hseq, ?_, ?_⟩
  · refine List.Pairwise.imp_of_mem ?_ hpw
    intro x y hx _ hxy
    have := hin x hx
    omega
  · intro x hx
    have := hin x hx
    omega

/-- C15 at the requests of Test 2 followed by two more, on an empty pool at 4096:
200, 300, 1500 (refused), 600 (refused), 500 and 24 bytes. -/
theorem C15_sequential_allocations_ordered_disjoint_witness :
    ∃ (vals : List Nat) (mp1 : PoolRef),
      alloc_seq (mk_pool 4096 0) [200, 300, 1500, 600, 500, 24] = .ok (vals, mp1) ∧
      vals.length = [200, 300, 1500, 600, 500, 24].length ∧
      (successes vals [200, 300, 1500, 600, 500, 24]).Pairwise
        (fun x y => x.1 < y.1 ∧ x.1 + x.2 ≤ y.1) ∧
      ∀ x ∈ successes vals [200, 300, 1500, 600, 500, 24],
        0 < x.2 ∧ 4096 ≤ x.1 ∧ x.1 + x.2 ≤ 4096 + MAX_BLOCK_SIZE :=
  C15_sequential_allocations_ordered_disjoint 4096 0 [200, 300, 1500, 600, 500, 24]
    (by decide) (by decide) (by decide)

/-- C16: on a freshly initialised pool with a real buffer at `buf`, the sizes
`a = 200`, `b = 300`, `c = 300` show the hazard: `p1 = mp_allocate(a)`,
`p2 = mp_allocate(b)`, `free_memory(p1)` and `p3 = mp_allocate(c)` all succeed,
`p3` is at offset 0 and `p2` at offset 200, so the range of `p3` contains the
bytes at offsets 200 to 299 of `p2`, which was never released. -/
theorem C16_truncation_hazard (buf : Nat)
    (hbuf : buf ≠ NULL) (hfit : buf + MAX_BLOCK_SIZE ≤ SIZE_MOD) :
    ∃ (a b c : Nat) (r1 r2 r4 : Ret Nat) (r3 : Ret Unit),
      mp_allocate (init_memory_pool true true buf true).mp a = .ok r1 ∧ r1.val ≠ NULL ∧
      mp_allocate r1.mp b = .ok r2 ∧ r2.val ≠ NULL ∧
      free_memory r2.mp r1.val = .ok r3 ∧ r3.out = [.free_addr_memory_success r1.val] ∧
      mp_allocate r3.mp c = .ok r4 ∧ r4.val ≠ NULL ∧
      r4.val = buf + 0 ∧ r2.val = buf + 200 ∧ a = 200 ∧ b = 300 ∧ c = 300 ∧
      r4.val < r2.val + b ∧ r2.val < r4.val + c ∧
      ∀ k, 200 ≤ k → k < 300 →
        (r4.val ≤ buf + k ∧ buf + k < r4.val + c) ∧ (r2.val ≤ buf + k ∧ buf + k < r2.val + b) := by
  have hM : MAX_BLOCK_SIZE = 1024 := rfl
  have hS : SIZE_MOD = 2 ^ 64 := rfl
  have hN : NULL = 0 := rfl
  have e1 : mp_allocate (init_memory_pool true true buf true).mp 200 =
      .ok { val := buf + 0, mp := mk_pool buf 200, out := [] } :=
    mp_allocate_mk_pool buf 0 200 hfit (by decide) (by decide)
  have e2 : mp_allocate (mk_pool buf 200) 300 =
      .ok { val := buf + 200, mp := mk_pool buf 500, out := [] } :=
    mp_allocate_mk_pool buf 200 300 hfit (by decide) (by decide)
  have e3 : free_memory (mk_pool buf 500) (buf + 0) =
      .ok { val := (), mp := mk_pool buf 0, out := [.free_addr_memory_success (buf + 0)] } := by
    have h := free_memory_accept
      { mp_block := some { __mem_start := buf, __size := MAX_BLOCK_SIZE, __used := 500 },
        mutex := { locked := false } }
      { __mem_start := buf, __size := MAX_BLOCK_SIZE, __used := 500 } (buf + 0) rfl rfl
      ⟨hfit, by show MAX_BLOCK_SIZE < 2 ^ 63; omega⟩ (by omega) (by omega) (Nat.le_add_right _ _)
      (by show buf + 0 < buf + MAX_BLOCK_SIZE; omega)
    rw [Nat.add_sub_cancel_left] at h
    exact h
  have e4 : mp_allocate (mk_pool buf 0) 300 =
      .ok { val := buf + 0, mp := mk_pool buf 300, out := [] } :=
    mp_allocate_mk_pool buf 0 300 hfit (by decide) (by decide)
  refine ⟨200, 300, 300, _, _, _, _, e1, ?_, e2, ?_, e3, rfl, e4, ?_, rfl, rfl, rfl, rfl, rfl,
    ?_, ?_, ?_⟩
  · show buf + 0 ≠ NULL; omega
  · show buf + 200 ≠ NULL; omega
  · show buf + 0 ≠ NULL; omega
  · show buf + 0 < buf + 200 + 300; omega
  · show buf + 200 < buf + 0 + 300; omega
  · intro k h1 h2
    show (buf + 0 ≤ buf + k ∧ buf + k < buf + 0 + 300) ∧
      (buf + 200 ≤ buf + k ∧ buf + k < buf + 200 + 300)
    omega

/-- C16 at the buffer 4096. -/
theorem C16_truncation_hazard_witness :
    ∃ (a b c : Nat) (r1 r2 r4 : Ret Nat) (r3 : Ret Unit),
      mp_allocate (init_memory_pool true true 4096 true).mp a = .ok r1 ∧ r1.val ≠ NULL ∧
      mp_allocate r1.mp b = .ok r2 ∧ r2.val ≠ NULL ∧
      free_memory r2.mp r1.val = .ok r3 ∧ r3.out = [.free_addr_memory_success r1.val] ∧
      mp_allocate r3.mp c = .ok r4 ∧ r4.val ≠ NULL ∧
      r4.val = 4096 + 0 ∧ r2.val = 4096 + 200 ∧ a = 200 ∧ b = 300 ∧ c = 300 ∧
      r4.val < r2.val + b ∧ r2.val < r4.val + c ∧
      ∀ k, 200 ≤ k → k < 300 →
        (r4.val ≤ 4096 + k ∧ 4096 + k < r4.val + c) ∧
          (r2.val ≤ 4096 + k ∧ 4096 + k < r2.val + b) :=
  C16_truncation_hazard 4096 (by decide) (by decide)

/-- C17: on a live pool with `used ≤ size` whose buffer lies in the address
space, whenever `mp_allocate(mp, m_size)` succeeds with the non-`NULL` handle
`p`, the call `free_memory(mp, p)` issued next is accepted and leaves the pool
exactly as it was before the allocation: `used`, size, buffer and mutex. -/
theorem C17_allocate_then_free_round_trip (p : memory_pool_t) (b : memory_block_t)
    (m_size : Nat) (r : Ret Nat)
    (hblk : p.mp_block = some b) (hused : b.__used ≤ b.__size) (has : in_address_space b)
    (h : mp_allocate (.valid p) m_size = .ok r) (hval : r.val ≠ NULL) :
    free_memory r.mp r.val =
      .ok { val := (), mp := .valid p, out := [.free_addr_memory_success r.val] } := by
  obtain ⟨hlock, hpos, hroom, hv, _, hmp⟩ :=
    mp_allocate_success p b m_size r hblk hused has h hval
  have hfit := has.1
  have hacc := free_memory_accept
    { mp_block := some { b with __used := b.__used + m_size }, mutex := { locked := false } }
    { b with __used := b.__used + m_size } r.val rfl rfl has
    (by rw [hv]; omega) hval (by rw [hv]; exact Nat.le_add_right _ _)
    (by rw [hv]; show b.__mem_start + b.__used < b.__mem_start + b.__size; omega)
  rw [hmp, hacc]
  have hp : ({ mp_block := some { b with __used := r.val - b.__mem_start },
               mutex := { locked := false } } : memory_pool_t) = p := by
    rw [hv, Nat.add_sub_cancel_left]
    cases p with
    | mk blk m =>
      cases m with
      | mk l =>
        simp only [] at hlock hblk
        subst hlock
        subst hblk
        rfl
  simp only [hp]

/-- C17 at a concrete pool: buffer at 4096, `used = 200`, allocation of 300 bytes
(handle 4296), then release of that handle. -/
theorem C17_allocate_then_free_round_trip_witness :
    mp_allocate (mk_pool 4096 200) 300 =
      .ok { val := 4296, mp := mk_pool 4096 500, out := [] } ∧
    free_memory (mk_pool 4096 500) 4296 =
      .ok { val := (), mp := mk_pool 4096 200, out := [.free_addr_memory_success 4296] } :=
  ⟨rfl, C17_allocate_then_free_round_trip
    { mp_block := some { __mem_start := 4096, __size := MAX_BLOCK_SIZE, __used := 200 },
      mutex := { locked := false } }
    { __mem_start := 4096, __size := MAX_BLOCK_SIZE, __used := 200 } 300
    { val := 4296, mp := mk_pool 4096 500, out := [] }
    rfl (by decide) (by decide) rfl (by decide)⟩

/-- C18: on a live pool with `used ≤ size` whose buffer lies in the address
space, a handle returned by a successful `mp_allocate` (non-`NULL`; with a
non-`NULL` buffer that is every admitted request) satisfies `is_mp_ptr` on the
pool the call leaves, and so does the address of its last byte: the handle is
`__mem_start + offset` with `offset + m_size - 1 < size`, and `offset` is
never `size`. -/
theorem C18_allocated_handle_is_owned (p : memory_pool_t) (b : memory_block_t)
    (m_size : Nat) (r : Ret Nat)
    (hblk : p.mp_block = some b) (hused : b.__used ≤ b.__size) (has : in_address_space b)
    (h : mp_allocate (.valid p) m_size = .ok r) (hval : r.val ≠ NULL) :
    is_mp_ptr r.mp r.val = .ok (true, []) ∧
    is_mp_ptr r.mp (r.val + m_size - 1) = .ok (true, []) ∧
    ∃ offset, r.val = b.__mem_start + offset ∧ offset + m_size - 1 < b.__size ∧
      offset ≠ b.__size ∧ 0 < m_size := by
  obtain ⟨_, hpos, hroom, hv, _, hmp⟩ :=
    mp_allocate_success p b m_size r hblk hused has h hval
  have hfit := has.1
  have hN : NULL = 0 := rfl
  have hown : ∀ ptr, ptr ≠ NULL → b.__mem_start ≤ ptr → ptr < b.__mem_start + b.__size →
      is_mp_ptr r.mp ptr = .ok (true, []) := by
    intro ptr h0 hlo hhi
    have hi := is_mp_ptr_valid
      { mp_block := some { b with __used := b.__used + m_size }, mutex := { locked := false } }
      { b with __used := b.__used + m_size } ptr rfl has (by omega)
    rw [hmp, hi, if_neg h0]
    have hd : decide (ptr ≠ NULL ∧ b.__mem_start ≤ ptr ∧ ptr < b.__mem_start + b.__size)
        = true := decide_eq_true ⟨h0, hlo, hhi⟩
    exact congrArg (fun t => Except.ok (t, [])) hd
  refine ⟨hown r.val hval (by omega) (by omega), hown _ (by omega) (by omega) (by omega),
    b.__used, hv, by omega, by omega, hpos⟩

/-- C18 at a concrete pool: buffer at 4096, `used = 900`, allocation of the last
124 bytes; the handle 4996 and its last byte 5119 are owned. -/
theorem C18_allocated_handle_is_owned_witness :
    mp_allocate (mk_pool 4096 900) 124 =
      .ok { val := 4996, mp := mk_pool 4096 1024, out := [] } ∧
    is_mp_ptr (mk_pool 4096 1024) 4996 = .ok (true, []) ∧
    is_mp_ptr (mk_pool 4096 1024) (4996 + 124 - 1) = .ok (true, []) ∧
    ∃ offset, 4996 = 4096 + offset ∧ offset + 124 - 1 < MAX_BLOCK_SIZE ∧
      offset ≠ MAX_BLOCK_SIZE ∧ 0 < 124 :=
  ⟨rfl, C18_allocated_handle_is_owned
    { mp_block := some { __mem_start := 4096, __size := MAX_BLOCK_SIZE, __used := 900 },
      mutex := { locked := false } }
    { __mem_start := 4096, __size := MAX_BLOCK_SIZE, __used := 900 } 124
    { val := 4996, mp := mk_pool 4096 1024, out := [] }
    rfl (by decide) (by decide) rfl (by decide)⟩

/-- C19: a pool is `mk_pool buf 0` after a successful `init_memory_pool` and after
a `free_all_memory` that obtains its replacement block and buffer.  On such a
pool with a real buffer, for `s > 0` and `N * s ≤ 1024`, `N` successive calls
`mp_allocate(mp, s)` all return, the `i`-th (from 0) returns the non-`NULL`
handle at offset `i * s`, and `used` ends at `N * s`; one more call
`mp_allocate(mp, s)` returns, and succeeds if and only if
`(N + 1) * s ≤ 1024`. -/
theorem C19_sequential_capacity_accounting (buf N s : Nat)
    (hbuf : buf ≠ NULL) (hfit : buf + MAX_BLOCK_SIZE ≤ SIZE_MOD)
    (hs : 0 < s) (hN : N * s ≤ MAX_BLOCK_SIZE) :
    (init_memory_pool true true buf true).mp = mk_pool buf 0 ∧
    (∀ base used, ∃ r : Ret Unit,
      free_all_memory (mk_pool base used) true buf = .ok r ∧ r.mp = mk_pool buf 0) ∧
    alloc_seq (mk_pool buf 0) (List.replicate N s) =
      .ok ((List.range N).map (fun i => buf + i * s), mk_pool buf (N * s)) ∧
    (∀ i, i < N → buf + i * s ≠ NULL) ∧
    used_of (mk_pool buf (N * s)) = some (N * s) ∧
    ∃ r : Ret Nat, mp_allocate (mk_pool buf (N * s)) s = .ok r ∧
      (r.val ≠ NULL ↔ (N + 1) * s ≤ MAX_BLOCK_SIZE) := by
  have hM : MAX_BLOCK_SIZE = 1024 := rfl
  have h0 : NULL = 0 := rfl
  have hseq := alloc_seq_replicate s hs buf hfit N 0 (by omega)
  simp only [Nat.zero_add] at hseq
  have hmul : (N + 1) * s = N * s + s := Nat.succ_mul N s
  refine ⟨rfl, fun base used => ⟨_, free_all_memory_reset _ _ buf rfl rfl, rfl⟩, hseq,
    fun i _ => by omega, rfl, ?_⟩
  by_cases hc : MAX_BLOCK_SIZE < s
  · refine ⟨_, mp_allocate_invalid_size _ s (Or.inr hc), ?_⟩
    constructor
    · intro hne; exact absurd rfl hne
    · intro hle; omega
  · by_cases hfull : MAX_BLOCK_SIZE < N * s + s
    · refine ⟨_, mp_allocate_mk_pool_full buf (N * s) s hN hs (by omega) hfull, ?_⟩
      constructor
      · intro hne; exact absurd rfl hne
      · intro hle; omega
    · refine ⟨_, mp_allocate_mk_pool buf (N * s) s hfit hs (by omega), ?_⟩
      constructor
      · intro _; omega
      · intro _
        show buf + N * s ≠ NULL
        omega

/-- C19 at `N = 4`, `s = 256`, buffer at 4096: four calls fill the pool
exactly and a fifth is refused. -/
theorem C19_sequential_capacity_accounting_witness :
    (init_memory_pool true true 4096 true).mp = mk_pool 4096 0 ∧
    (∀ base used, ∃ r : Ret Unit,
      free_all_memory (mk_pool base used) true 4096 = .ok r ∧ r.mp = mk_pool 4096 0) ∧
    alloc_seq (mk_pool 4096 0) (List.replicate 4 256) =
      .ok ((List.range 4).map (fun i => 4096 + i * 256), mk_pool 4096 (4 * 256)) ∧
    (∀ i, i < 4 → 4096 + i * 256 ≠ NULL) ∧
    used_of (mk_pool 4096 (4 * 256)) = some (4 * 256) ∧
    ∃ r : Ret Nat, mp_allocate (mk_pool 4096 (4 * 256)) 256 = .ok r ∧
      (r.val ≠ NULL ↔ (4 + 1) * 256 ≤ MAX_BLOCK_SIZE) :=
  C19_sequential_capacity_accounting 4096 4 256 (by decide) (by decide) (by decide)
    (by decide)

end MemoryPool
